import Mathlib

/-!
# Substreams: WASM call protocol and backfill orchestrator

A shallow embedding of `wasm/call.go`, `orchestrator/scheduler.go` and
`orchestrator/waiter.go`, with the properties of the specification stated
over it.

Conventions of the embedding:

* Go strings are Lean `String`s (sequences of Unicode scalar values).
* A Go `error` is a `GoError`: its `Error()` text, its dynamic kind and
  what `Unwrap()` returns.
* A Go `panic` is an explicit result, never a Lean exception.
* `uint64` block numbers are `Nat`; the code only compares them.
-/

namespace Substreams

/-! ## Go formatting: the `%q` verb -/

/-- Digit `n % 16` of `strconv`'s `lowerhex` table. -/
def lowerhex (n : Nat) : Char :=
  ("0123456789abcdef".data).getD (n % 16) '0'

/-- The `width` lowest hexadecimal digits of `n`, most significant first. -/
def hexDigits : Nat → Nat → List Char
  | 0, _ => []
  | width + 1, n => hexDigits width (n / 16) ++ [lowerhex n]

/-- Go's `strconv.IsPrint`: decided by comparison up to `0xFF`, and by the
Unicode tables `wide` above it. -/
def IsPrint (wide : Nat → Bool) (r : Nat) : Bool :=
  if r ≤ 0xFF then
    if 0x20 ≤ r ∧ r ≤ 0x7E then true
    else if 0xA1 ≤ r then r != 0xAD
    else false
  else wide r

/-- Go's `strconv.appendEscapedRune` with quote `"` (neither ASCII-only nor
graphic-only), on a valid rune. -/
def appendEscapedRune (wide : Nat → Bool) (r : Char) : List Char :=
  if r = '"' ∨ r = '\\' then ['\\', r]
  else if IsPrint wide r.toNat then [r]
  else if r.toNat = 0x07 then ['\\', 'a']
  else if r.toNat = 0x08 then ['\\', 'b']
  else if r.toNat = 0x0C then ['\\', 'f']
  else if r.toNat = 0x0A then ['\\', 'n']
  else if r.toNat = 0x0D then ['\\', 'r']
  else if r.toNat = 0x09 then ['\\', 't']
  else if r.toNat = 0x0B then ['\\', 'v']
  else if r.toNat < 0x20 ∨ r.toNat = 0x7F then '\\' :: 'x' :: hexDigits 2 r.toNat
  else if r.toNat < 0x10000 then '\\' :: 'u' :: hexDigits 4 r.toNat
  else '\\' :: 'U' :: hexDigits 8 r.toNat

/-- The escaped body of a quoted string, rune by rune. -/
def escapeRunes (wide : Nat → Bool) : List Char → List Char
  | [] => []
  | r :: rs => appendEscapedRune wide r ++ escapeRunes wide rs

/-- Go's `strconv.Quote`, which is what `fmt` prints for `%q` of a string. -/
def goQuote (wide : Nat → Bool) (s : String) : String :=
  ⟨'"' :: (escapeRunes wide s.data ++ ['"'])⟩

/-- A rune that `%q` prints as itself: printable ASCII other than `"` and `\`. -/
def plainRune (r : Char) : Bool :=
  decide (0x20 ≤ r.toNat) && decide (r.toNat ≤ 0x7E) && (r != '"') && (r != '\\')

/-- A string made of plain runes only. -/
def plainText (s : String) : Bool :=
  s.data.all plainRune

/-- The text `sub` occurs in `text` as a contiguous run of characters
(`strings.Contains`). -/
def containsText (text sub : String) : Prop :=
  sub.data <:+: text.data

instance (text sub : String) : Decidable (containsText text sub) := by
  unfold containsText; infer_instance

/-! ## Go errors -/

/-- The dynamic type of an error value, as far as the code inspects it. -/
inductive ErrKind
  /-- An error built by `fmt.Errorf` or `errors.New`. -/
  | plain
  /-- A `*work.RetryableErr`. -/
  | retryable
  /-- A `*derr.ErrFatal`. -/
  | fatal
  /-- The `context.Canceled` sentinel. -/
  | canceled
  deriving DecidableEq, Repr

/-- A Go error value: the text of `Error()`, its dynamic kind, and the error
`Unwrap()` gives, when there is one. -/
inductive GoError
  | mk (text : String) (kind : ErrKind) (inner : Option GoError)
  deriving Repr

/-- Equality of error values is decidable. -/
def GoError.decEq : (a b : GoError) → Decidable (a = b)
  | .mk t1 k1 none, .mk t2 k2 none =>
    if h : t1 = t2 ∧ k1 = k2 then isTrue (by rw [h.1, h.2])
    else isFalse (fun e => by injection e with e1 e2; exact h ⟨e1, e2⟩)
  | .mk t1 k1 (some a), .mk t2 k2 (some b) =>
    match GoError.decEq a b with
    | isTrue hab =>
      if h : t1 = t2 ∧ k1 = k2 then isTrue (by rw [h.1, h.2, hab])
      else isFalse (fun e => by injection e with e1 e2; exact h ⟨e1, e2⟩)
    | isFalse hab =>
      isFalse (fun e => by injection e with _ _ e3; injection e3 with e4; exact hab e4)
  | .mk _ _ none, .mk _ _ (some _) => isFalse (fun e => by injection e with _ _ e3; cases e3)
  | .mk _ _ (some _), .mk _ _ none => isFalse (fun e => by injection e with _ _ e3; cases e3)

instance : DecidableEq GoError := GoError.decEq

namespace GoError

/-- The method `Error()`. -/
def Error : GoError → String
  | mk text _ _ => text

/-- The dynamic kind. -/
def kind : GoError → ErrKind
  | mk _ k _ => k

/-- The method `Unwrap()`. -/
def Unwrap : GoError → Option GoError
  | mk _ _ inner => inner

/-- The chain `e, e.Unwrap(), e.Unwrap().Unwrap(), ...` that `errors.Is`
walks. -/
def chain : GoError → List GoError
  | mk text k none => [mk text k none]
  | mk text k (some e) => mk text k (some e) :: chain e

end GoError

/-- Go's `fmt.Errorf(pre + "%w", err)`: the text ends with the text of `err`
and `Unwrap()` gives `err` back. -/
def errorfW (pre : String) (err : GoError) : GoError :=
  .mk (pre ++ err.Error) .plain (some err)

/-- The error `e` wraps `target`: `target` is on the `Unwrap` chain of `e`. -/
def Wraps (e target : GoError) : Prop :=
  target ∈ e.chain

instance (e target : GoError) : Decidable (Wraps e target) := by
  unfold Wraps; infer_instance

/-! ## `wasm/call.go`: the Call and its store-operation validators -/

/-- The enum `pbsubstreams.Module_KindStore_UpdatePolicy`, with the constants
that `policyMap` lists. -/
inductive UpdatePolicy
  | UNSET
  | SET
  | SET_IF_NOT_EXISTS
  | ADD
  | MIN
  | MAX
  | APPEND
  deriving DecidableEq, Repr

/-- The table `policyMap`. -/
def policyMap : UpdatePolicy → String
  | .UNSET => "unset"
  | .SET => "replace"
  | .SET_IF_NOT_EXISTS => "ignore"
  | .ADD => "add"
  | .MIN => "min"
  | .MAX => "max"
  | .APPEND => "append"

/-- What the Call uses of a `store.Store` or `store.Reader`: the results of
its methods `Name()` and `String()`. -/
structure Store where
  Name : String
  String : String
  deriving DecidableEq, Repr

/-- The struct `Call`. The fields `ctx`, `wasmModule` and `clock` are handles
that none of the modelled methods reads; a nil `outputStore` is `none`. -/
structure Call where
  moduleName : String
  entrypoint : String
  inputStores : List Store
  outputStore : Option Store
  updatePolicy : UpdatePolicy
  valueType : String
  returnValue : List Nat
  panicError : Option GoError
  Logs : List String
  LogsByteCount : Nat
  ExecutionStack : List String
  deriving DecidableEq, Repr

/-- How a host-side method of a Call ends: the Call as the method left it,
and the value it panicked with, if it panicked. -/
structure HostResult where
  call : Call
  panic : Option GoError
  deriving DecidableEq, Repr

/-- The Go runtime panic of a method call on a nil interface value. -/
def nilDereference : GoError :=
  .mk "runtime error: invalid memory address or nil pointer dereference" .plain none

section Validators

variable (wide : Nat → Bool)

/-- The value `Call.returnInvalidPolicy` panics with. -/
def Call.returnInvalidPolicy (c : Call) (stateFunc policy : String) : GoError :=
  .mk ("module " ++ goQuote wide c.moduleName ++ ": invalid store operation "
        ++ goQuote wide stateFunc ++ ", only valid for stores with " ++ policy) .plain none

/-- The method `Call.traceStateWrites`: one line appended to `ExecutionStack`. -/
def Call.traceStateWrites (c : Call) (stateFunc key : String) : HostResult :=
  match c.outputStore with
  | none => { call := c, panic := some nilDereference }
  | some store =>
    let line := store.Name ++ "::" ++ stateFunc ++ " key: " ++ goQuote wide key
                  ++ ", store details: " ++ store.String
    { call := { c with ExecutionStack := c.ExecutionStack ++ [line] }, panic := none }

/-- The method `Call.validateSimple`. -/
def Call.validateSimple (c : Call) (stateFunc : String) (updatePolicy : UpdatePolicy)
    (key : String) : HostResult :=
  if c.updatePolicy ≠ updatePolicy then
    { call := c
      panic := some (c.returnInvalidPolicy wide stateFunc
        ("updatePolicy == " ++ goQuote wide (policyMap updatePolicy))) }
  else c.traceStateWrites wide stateFunc key

/-- The method `Call.validateWithValueType`. -/
def Call.validateWithValueType (c : Call) (stateFunc : String) (updatePolicy : UpdatePolicy)
    (valueType : String) (key : String) : HostResult :=
  if c.updatePolicy ≠ updatePolicy ∨ c.valueType ≠ valueType then
    { call := c
      panic := some (c.returnInvalidPolicy wide stateFunc
        ("updatePolicy == " ++ goQuote wide (policyMap updatePolicy)
          ++ " and valueType == " ++ goQuote wide valueType)) }
  else c.traceStateWrites wide stateFunc key

/-- The method `Call.validateWithTwoValueTypes`. -/
def Call.validateWithTwoValueTypes (c : Call) (stateFunc : String) (updatePolicy : UpdatePolicy)
    (valueType1 valueType2 : String) (key : String) : HostResult :=
  if c.updatePolicy ≠ updatePolicy ∨ (c.valueType ≠ valueType1 ∧ c.valueType ≠ valueType2) then
    { call := c
      panic := some (c.returnInvalidPolicy wide stateFunc
        ("updatePolicy == " ++ goQuote wide (policyMap updatePolicy)
          ++ " and valueType == " ++ goQuote wide valueType1)) }
  else c.traceStateWrites wide stateFunc key

def Call.validateSetStore (c : Call) (key : String) : HostResult :=
  c.validateSimple wide "set" .SET key

def Call.validateSetIfNotExists (c : Call) (key : String) : HostResult :=
  c.validateSimple wide "set_if_not_exists" .SET_IF_NOT_EXISTS key

def Call.validateAppend (c : Call) (key : String) : HostResult :=
  c.validateSimple wide "append" .APPEND key

def Call.validateAddBigInt (c : Call) (key : String) : HostResult :=
  c.validateWithValueType wide "add_bigint" .ADD "bigint" key

def Call.validateAddBigDecimal (c : Call) (key : String) : HostResult :=
  c.validateWithTwoValueTypes wide "add_bigdecimal" .ADD "bigdecimal" "bigfloat" key

def Call.validateAddInt64 (c : Call) (key : String) : HostResult :=
  c.validateWithValueType wide "add_int64" .ADD "int64" key

def Call.validateAddFloat64 (c : Call) (key : String) : HostResult :=
  c.validateWithValueType wide "add_float64" .ADD "float64" key

def Call.validateSetMinInt64 (c : Call) (key : String) : HostResult :=
  c.validateWithValueType wide "set_min_int64" .MIN "int64" key

def Call.validateSetMinBigInt (c : Call) (key : String) : HostResult :=
  c.validateWithValueType wide "set_min_bigint" .MIN "bigint" key

def Call.validateSetMinFloat64 (c : Call) (key : String) : HostResult :=
  c.validateWithValueType wide "set_min_float64" .MIN "float64" key

def Call.validateSetMinBigDecimal (c : Call) (key : String) : HostResult :=
  c.validateWithTwoValueTypes wide "set_min_bigdecimal" .MIN "bigdecimal" "bigfloat" key

def Call.validateSetMaxInt64 (c : Call) (key : String) : HostResult :=
  c.validateWithValueType wide "set_max_int64" .MAX "int64" key

def Call.validateSetMaxBigInt (c : Call) (key : String) : HostResult :=
  c.validateWithValueType wide "set_max_bigint" .MAX "bigint" key

def Call.validateSetMaxFloat64 (c : Call) (key : String) : HostResult :=
  c.validateWithValueType wide "set_max_float64" .MAX "float64" key

def Call.validateSetMaxBigDecimal (c : Call) (key : String) : HostResult :=
  c.validateWithTwoValueTypes wide "set_max_bigdecimal" .MAX "bigdecimal" "bigfloat" key

end Validators

/-- The host store operations of the callback taxonomy, one per validator. -/
inductive HostOp
  | set
  | set_if_not_exists
  | append
  | add_bigint
  | add_bigdecimal
  | add_int64
  | add_float64
  | set_min_int64
  | set_min_bigint
  | set_min_float64
  | set_min_bigdecimal
  | set_max_int64
  | set_max_bigint
  | set_max_float64
  | set_max_bigdecimal
  deriving DecidableEq, Repr

/-- The name under which the host exposes an operation. -/
def HostOp.name : HostOp → String
  | .set => "set"
  | .set_if_not_exists => "set_if_not_exists"
  | .append => "append"
  | .add_bigint => "add_bigint"
  | .add_bigdecimal => "add_bigdecimal"
  | .add_int64 => "add_int64"
  | .add_float64 => "add_float64"
  | .set_min_int64 => "set_min_int64"
  | .set_min_bigint => "set_min_bigint"
  | .set_min_float64 => "set_min_float64"
  | .set_min_bigdecimal => "set_min_bigdecimal"
  | .set_max_int64 => "set_max_int64"
  | .set_max_bigint => "set_max_bigint"
  | .set_max_float64 => "set_max_float64"
  | .set_max_bigdecimal => "set_max_bigdecimal"

/-- The validator that guards each host operation. -/
def HostOp.validator (wide : Nat → Bool) : HostOp → Call → String → HostResult
  | .set => Call.validateSetStore wide
  | .set_if_not_exists => Call.validateSetIfNotExists wide
  | .append => Call.validateAppend wide
  | .add_bigint => Call.validateAddBigInt wide
  | .add_bigdecimal => Call.validateAddBigDecimal wide
  | .add_int64 => Call.validateAddInt64 wide
  | .add_float64 => Call.validateAddFloat64 wide
  | .set_min_int64 => Call.validateSetMinInt64 wide
  | .set_min_bigint => Call.validateSetMinBigInt wide
  | .set_min_float64 => Call.validateSetMinFloat64 wide
  | .set_min_bigdecimal => Call.validateSetMinBigDecimal wide
  | .set_max_int64 => Call.validateSetMaxInt64 wide
  | .set_max_bigint => Call.validateSetMaxBigInt wide
  | .set_max_float64 => Call.validateSetMaxFloat64 wide
  | .set_max_bigdecimal => Call.validateSetMaxBigDecimal wide

/-- The store callback taxonomy as the specification tabulates it: the
`(policy, value type)` combinations for which each host operation is valid. -/
def specAllows : HostOp → UpdatePolicy → String → Prop
  | .set, p, _ => p = .SET
  | .set_if_not_exists, p, _ => p = .SET_IF_NOT_EXISTS
  | .append, p, vt => p = .APPEND ∧ (vt = "bytes" ∨ vt = "string")
  | .add_bigint, p, vt => p = .ADD ∧ vt = "bigint"
  | .add_bigdecimal, p, vt => p = .ADD ∧ (vt = "bigdecimal" ∨ vt = "bigfloat")
  | .add_int64, p, vt => p = .ADD ∧ vt = "int64"
  | .add_float64, p, vt => p = .ADD ∧ vt = "float64"
  | .set_min_int64, p, vt => p = .MIN ∧ vt = "int64"
  | .set_min_bigint, p, vt => p = .MIN ∧ vt = "bigint"
  | .set_min_float64, p, vt => p = .MIN ∧ vt = "float64"
  | .set_min_bigdecimal, p, vt => p = .MIN ∧ (vt = "bigdecimal" ∨ vt = "bigfloat")
  | .set_max_int64, p, vt => p = .MAX ∧ vt = "int64"
  | .set_max_bigint, p, vt => p = .MAX ∧ vt = "bigint"
  | .set_max_float64, p, vt => p = .MAX ∧ vt = "float64"
  | .set_max_bigdecimal, p, vt => p = .MAX ∧ (vt = "bigdecimal" ∨ vt = "bigfloat")

/-- The combinations each validator lets through to `traceStateWrites`: the
negation of the guard of `validateSimple`, `validateWithValueType` or
`validateWithTwoValueTypes`, with the policy and value types the validator of
the operation passes. -/
def validatorAllows : HostOp → UpdatePolicy → String → Prop
  | .set, p, _ => p = .SET
  | .set_if_not_exists, p, _ => p = .SET_IF_NOT_EXISTS
  | .append, p, _ => p = .APPEND
  | .add_bigint, p, vt => p = .ADD ∧ vt = "bigint"
  | .add_bigdecimal, p, vt => p = .ADD ∧ (vt = "bigdecimal" ∨ vt = "bigfloat")
  | .add_int64, p, vt => p = .ADD ∧ vt = "int64"
  | .add_float64, p, vt => p = .ADD ∧ vt = "float64"
  | .set_min_int64, p, vt => p = .MIN ∧ vt = "int64"
  | .set_min_bigint, p, vt => p = .MIN ∧ vt = "bigint"
  | .set_min_float64, p, vt => p = .MIN ∧ vt = "float64"
  | .set_min_bigdecimal, p, vt => p = .MIN ∧ (vt = "bigdecimal" ∨ vt = "bigfloat")
  | .set_max_int64, p, vt => p = .MAX ∧ vt = "int64"
  | .set_max_bigint, p, vt => p = .MAX ∧ vt = "bigint"
  | .set_max_float64, p, vt => p = .MAX ∧ vt = "float64"
  | .set_max_bigdecimal, p, vt => p = .MAX ∧ (vt = "bigdecimal" ∨ vt = "bigfloat")

/-! ## `wasm/call.go`: executing a call -/

/-- The method `Call.Err`, by the `*PanicError` it returns. Go puts that
pointer into the `error` result, an interface value that is not nil even when
the pointer is: `none` here is the nil pointer, not a nil `error`. -/
def Call.Err (c : Call) : Option GoError :=
  c.panicError

/-- The method `Call.Output`. -/
def Call.Output (c : Call) : List Nat :=
  c.returnValue

/-- The method `Call.SetOutputStore`; a nil store is `none`. -/
def Call.SetOutputStore (c : Call) (store : Option Store) : Call :=
  { c with outputStore := store }

/-- The constant `maxLogByteCount`. -/
def maxLogByteCount : Nat := 128 * 1024

/-- The method `Call.ReachedLogsMaxByteCount`. -/
def Call.ReachedLogsMaxByteCount (c : Call) : Bool :=
  decide (c.LogsByteCount ≥ maxLogByteCount)

/-- Modelled from the spec: the interface `Argument` and its implementations,
which are declared outside the given sources. "Arguments are of three
flavours": a `StoreWriterOutput` with its store, update policy and value
type, a `StoreReaderInput` with its store, and a `ValueArgument` with its
bytes; `unknown` is any other implementation of the interface. Each has a
`Name()`. -/
inductive Argument
  | StoreWriterOutput (Name : String) (Store : Option Store) (UpdatePolicy : UpdatePolicy)
      (ValueType : String)
  | StoreReaderInput (Name : String) (Store : Store)
  | ValueArgument (Name : String) (Value : List Nat)
  | unknown (Name : String)
  deriving DecidableEq, Repr

/-- The `Call` literal `ExecuteNewCall` starts from: every field but the
module name and the entrypoint has its zero value. -/
def newCall (moduleName entrypoint : String) : Call :=
  { moduleName := moduleName, entrypoint := entrypoint, inputStores := [], outputStore := none,
    updatePolicy := .UNSET, valueType := "", returnValue := [], panicError := none,
    Logs := [], LogsByteCount := 0, ExecutionStack := [] }

/-- The variables of the argument loop of `ExecuteNewCall`: the Call, the
guest arguments `args`, and the linear memory of the instance. -/
structure GuestArgs (Heap : Type) where
  call : Call
  args : List Nat
  heap : Heap

/-- The value the argument loop panics with on an argument of another type. -/
def unknownArgumentType : GoError :=
  .mk "unknown wasm argument type" .plain none

/-- One round of the argument loop of `ExecuteNewCall`. The helper
`writeToHeap`, which is not among the given sources, is a parameter: it copies
the bytes into the memory and gives the pointer. -/
def addArgument {Heap : Type} (writeToHeap : Heap → List Nat → String → Nat × Heap)
    (s : GuestArgs Heap) : Argument → Except GoError (GuestArgs Heap)
  | .StoreWriterOutput _ store updatePolicy valueType =>
    .ok { s with call := { s.call with outputStore := store, updatePolicy := updatePolicy,
                                       valueType := valueType } }
  | .StoreReaderInput _ store =>
    let call := { s.call with inputStores := s.call.inputStores ++ [store] }
    .ok { s with call := call, args := s.args ++ [call.inputStores.length - 1] }
  | .ValueArgument name cnt =>
    let written := writeToHeap s.heap cnt name
    .ok { s with args := s.args ++ [written.1, cnt.length], heap := written.2 }
  | .unknown _ => .error unknownArgumentType

/-- The argument loop of `ExecuteNewCall`. -/
def buildArguments {Heap : Type} (writeToHeap : Heap → List Nat → String → Nat × Heap) :
    List Argument → GuestArgs Heap → Except GoError (GuestArgs Heap)
  | [], s => .ok s
  | input :: rest, s =>
    match addArgument writeToHeap s input with
    | .error e => .error e
    | .ok s1 => buildArguments writeToHeap rest s1

/-- What `ExecuteNewCall` needs of the WASM module and its runtime, none of
which is among the given sources: the result of `instantiateModule` (the
memory of the fresh instance, or an error), the exported functions of the
instance, and the helper `writeToHeap`. An exported function, called with the
Call in its context and the guest arguments, leaves the Call as the host
functions changed it and returns an error or nil. -/
structure WasmModule (Heap : Type) where
  instantiateModule : Except GoError Heap
  ExportedFunction : String → Option (Call → List Nat → Heap → Call × Option GoError)
  writeToHeap : Heap → List Nat → String → Nat × Heap

/-- What `ExecuteNewCall` gives back: whether `mod` is an instance, the Call,
the error; the values the entrypoint was called with, if it was called; and
the value of the panic, if the method panicked instead of returning. -/
structure Executed where
  mod : Bool
  call : Option Call
  err : Option GoError
  guestArgs : Option (List Nat)
  panic : Option GoError
  deriving DecidableEq, Repr

/-- The method `Module.ExecuteNewCall`. -/
def ExecuteNewCall {Heap : Type} (wide : Nat → Bool) (m : WasmModule Heap)
    (moduleName entrypoint : String) (arguments : List Argument) : Executed :=
  match m.instantiateModule with
  | .error err =>
    { mod := false, call := none, guestArgs := none, panic := none
      err := some (errorfW
        ("could not instantiate wasm module for " ++ goQuote wide moduleName ++ ": ") err) }
  | .ok heap =>
    match m.ExportedFunction entrypoint with
    | none =>
      { mod := true, call := none, guestArgs := none, panic := none
        err := some (.mk ("could not find entrypoint function " ++ goQuote wide entrypoint
          ++ " for module " ++ goQuote wide moduleName) .plain none) }
    | some f =>
      match buildArguments m.writeToHeap arguments
          { call := newCall moduleName entrypoint, args := [], heap := heap } with
      | .error v => { mod := false, call := none, err := none, guestArgs := none, panic := some v }
      | .ok s =>
        let ran := f s.call s.args s.heap
        match ran.2 with
        | some err =>
          match ran.1.panicError with
          | some panicError =>
            { mod := true, call := some ran.1, err := some panicError,
              guestArgs := some s.args, panic := none }
          | none =>
            { mod := true, call := some ran.1, guestArgs := some s.args, panic := none
              err := some (errorfW
                ("executing module " ++ goQuote wide ran.1.moduleName ++ ": ") err) }
        | none =>
          { mod := true, call := some ran.1, err := none, guestArgs := some s.args,
            panic := none }

/-- The guest values the specification assigns to an argument list:
a `StoreReaderInput` gives its handle, the handles ascending from
`handle`; a `ValueArgument` gives the pointer of its copy in the memory and
the length of its bytes; a `StoreWriterOutput` gives nothing. -/
def specGuestArgs {Heap : Type} (writeToHeap : Heap → List Nat → String → Nat × Heap) :
    List Argument → Nat → Heap → List Nat
  | [], _, _ => []
  | .StoreWriterOutput _ _ _ _ :: rest, handle, heap =>
    specGuestArgs writeToHeap rest handle heap
  | .StoreReaderInput _ _ :: rest, handle, heap =>
    handle :: specGuestArgs writeToHeap rest (handle + 1) heap
  | .ValueArgument name value :: rest, handle, heap =>
    (writeToHeap heap value name).1 :: value.length ::
      specGuestArgs writeToHeap rest handle (writeToHeap heap value name).2
  | .unknown _ :: rest, handle, heap => specGuestArgs writeToHeap rest handle heap

/-- The stores of the `StoreReaderInput`s of an argument list, in order. -/
def readerStores : List Argument → List Store
  | [] => []
  | .StoreReaderInput _ store :: rest => store :: readerStores rest
  | _ :: rest => readerStores rest

/-- The number of `ValueArgument`s of an argument list. -/
def countValueArguments : List Argument → Nat
  | [] => 0
  | .ValueArgument _ _ :: rest => countValueArguments rest + 1
  | _ :: rest => countValueArguments rest

/-- The output store, update policy and value type an argument list
designates, starting from `current`: those of its last `StoreWriterOutput`. -/
def writerOutput : List Argument → Option Store × UpdatePolicy × String →
    Option Store × UpdatePolicy × String
  | [], current => current
  | .StoreWriterOutput _ store updatePolicy valueType :: rest, _ =>
    writerOutput rest (store, updatePolicy, valueType)
  | _ :: rest, current => writerOutput rest current

/-- An argument of one of the three flavours. -/
def Argument.known : Argument → Bool
  | .unknown _ => false
  | _ => true

/-! ## `orchestrator/scheduler.go`: results of jobs -/

/-- One entry of `store.FileInfos`: a partial file a job wrote. -/
structure FileInfo where
  Filename : String
  deriving DecidableEq, Repr

/-- The slice type `store.FileInfos`; the nil slice is `none`, an allocated
slice of length zero is `some []`. -/
abbrev FileInfos := Option (List FileInfo)

/-- What the scheduler reads of a `work.Job`. -/
structure Job where
  ModuleName : String
  StartBlock : Nat
  ExclusiveEndBlock : Nat
  deriving DecidableEq, Repr

/-- The struct `work.Result`. -/
structure WorkResult where
  PartialFilesWritten : FileInfos
  Error : Option GoError
  deriving DecidableEq, Repr

/-- The struct `jobResult`; a nil `job` pointer is `none`. -/
structure jobResult where
  job : Option Job
  partialsWritten : FileInfos
  err : Option GoError
  deriving DecidableEq, Repr

/-- The function `fromWorkResult`. -/
def fromWorkResult (job : Option Job) (wr : WorkResult) : jobResult :=
  { job := job, partialsWritten := wr.PartialFilesWritten, err := wr.Error }

/-- One invocation of the callback `OnStoreJobTerminated`: its module name
and its partial files. -/
structure Invocation where
  moduleName : String
  partialFilesWritten : FileInfos
  deriving DecidableEq, Repr

/-- The injected callback `Scheduler.OnStoreJobTerminated`. Its answer may
depend on the invocations made before, which it receives first. -/
abbrev StoreJobCallback := List Invocation → String → FileInfos → Option GoError

/-- How a scheduler method ends. -/
inductive Ending
  /-- The method returned this `error` value (`none` is nil). -/
  | returned (err : Option GoError)
  /-- The method panicked with this value. -/
  | panicked (value : GoError)
  /-- The method waits in its `select` and nothing more arrives. -/
  | blocked
  deriving DecidableEq, Repr

/-- The method `Scheduler.processJobResult`, with the log of callback
invocations made so far threaded through. -/
def processJobResult (OnStoreJobTerminated : StoreJobCallback) (log : List Invocation)
    (result : jobResult) : List Invocation × Ending :=
  match result.err with
  | some err => (log, .returned (some (errorfW "job ended in error: " err)))
  | none =>
    match result.partialsWritten with
    | some files =>
      match result.job with
      | none => (log, .panicked nilDereference)
      | some job =>
        match OnStoreJobTerminated log job.ModuleName (some files) with
        | some err =>
          (log ++ [⟨job.ModuleName, some files⟩], .returned (some (errorfW "on job terminated: " err)))
        | none => (log ++ [⟨job.ModuleName, some files⟩], .returned none)
    | none => (log, .returned none)

/-- The module name `gatherResults` reports for a result: the job's, or
`unknown` when the result has no job. -/
def jobResult.moduleName (r : jobResult) : String :=
  match r.job with
  | some job => job.ModuleName
  | none => "unknown"

/-- What one round of the `select` in `gatherResults` delivers. -/
inductive SelectEvent
  /-- The case `<-ctx.Done()`, with the value of `ctx.Err()`. -/
  | ctxDone (err : Option GoError)
  /-- A result received from the channel. -/
  | recv (result : jobResult)
  /-- The channel was found closed. -/
  | closed
  deriving DecidableEq, Repr

/-- The method `Scheduler.gatherResults`, run on the events its `select`
delivers in turn. -/
def gatherResults (wide : Nat → Bool) (OnStoreJobTerminated : StoreJobCallback) :
    List Invocation → List SelectEvent → List Invocation × Ending
  | log, [] => (log, .blocked)
  | log, .ctxDone err :: _ => (log, .returned err)
  | log, .closed :: _ => (log, .returned none)
  | log, .recv jobResult :: rest =>
    match processJobResult OnStoreJobTerminated log jobResult with
    | (log1, .returned (some err)) =>
      let moduleName :=
        match jobResult.job with
        | some job => job.ModuleName
        | none => "unknown"
      (log1, .returned (some
        (errorfW ("process job result for module " ++ goQuote wide moduleName ++ ": ") err)))
    | (log1, .returned none) => gatherResults wide OnStoreJobTerminated log1 rest
    | (log1, .panicked v) => (log1, .panicked v)
    | (log1, .blocked) => (log1, .blocked)

/-! ## `orchestrator/scheduler.go`: running one job -/

/-- Modelled from the spec: `derr.NewFatalError`, of the package
`streamingfast/derr` whose source is not part of the repository ("other errors
are wrapped as fatal"). The wrapper keeps the text of the error. -/
def NewFatalError (err : GoError) : GoError :=
  .mk err.Error .fatal (some err)

/-- The attempts of `RetryContext`: `last` is the error of the previous
attempt, `f` the callback as a transition on the state it captures. -/
def retryLoop {σ : Type} (ctxErr : Option GoError) (f : σ → Option GoError × σ) :
    Nat → Option GoError → σ → Option GoError × σ
  | 0, last, s => (last, s)
  | n + 1, _, s =>
    match ctxErr with
    | some e => (some e, s)
    | none =>
      match f s with
      | (none, s1) => (none, s1)
      | (some e, s1) => if e.kind = .fatal then (some e, s1) else retryLoop ctxErr f n (some e) s1

/-- Modelled from the spec: `derr.RetryContext`, of the package
`streamingfast/derr` whose source is not part of the repository. The retry
policy is "up to 3 attempts; only `RetryableErr` triggers another attempt, other
errors are wrapped as fatal and abort retrying. A cancelled context
short-circuits retries": the callback runs at most `attempts` times, a fatal
error or a success ends the loop, and after the last attempt its error is
returned. -/
def RetryContext {σ : Type} (ctxErr : Option GoError) (attempts : Nat)
    (f : σ → Option GoError × σ) (s : σ) : Option GoError × σ :=
  retryLoop ctxErr f attempts none s

/-- The variables the retry callback of `runSingleJob` captures and writes:
`workResult`, and how often `worker.Work` has been called. -/
structure Attempts where
  workResult : Option WorkResult
  calls : Nat
  deriving DecidableEq, Repr

/-- The callback `runSingleJob` hands to `derr.RetryContext`. The worker is
given by the result of each of its successive calls. -/
def workOnce (Work : Nat → WorkResult) (s : Attempts) : Option GoError × Attempts :=
  let workResult := Work s.calls
  let s1 : Attempts := { workResult := some workResult, calls := s.calls + 1 }
  match workResult.Error with
  | none => (none, s1)
  | some err =>
    if err.kind = .retryable then (some err, s1)
    else (some (NewFatalError err), s1)

/-- The worker's result ended in a `*work.RetryableErr`. -/
def WorkResult.retryable (wr : WorkResult) : Bool :=
  match wr.Error with
  | some e => decide (e.kind = .retryable)
  | none => false

/-- What `runSingleJob` produced, with the number of calls of `worker.Work`. -/
structure SingleJobRun where
  attempts : Nat
  outcome : Except GoError jobResult
  deriving Repr

/-- The method `Scheduler.runSingleJob`; `ctxErr` is what `ctx.Err()` returns
while the job runs. -/
def runSingleJob (ctxErr : Option GoError) (Work : Nat → WorkResult) (job : Job) :
    SingleJobRun :=
  match RetryContext ctxErr 3 (workOnce Work) { workResult := none, calls := 0 } with
  | (some err, s) => { attempts := s.calls, outcome := .ok { job := some job, partialsWritten := none, err := some err } }
  | (none, s) =>
    match ctxErr with
    | some err => { attempts := s.calls, outcome := .ok { job := some job, partialsWritten := none, err := some err } }
    | none =>
      match s.workResult with
      | none => { attempts := s.calls, outcome := .error nilDereference }
      | some workResult => { attempts := s.calls, outcome := .ok (fromWorkResult (some job) workResult) }

/-! ## `orchestrator/scheduler.go`: dispatching -/

/-- A `work.Worker`, known to the scheduler by its `ID()`. -/
structure Worker where
  ID : String
  deriving DecidableEq, Repr

/-- The state the dispatcher of `Schedule` works on: the scheduler's own
fields, the worker pool, the goroutines it has launched, and the log of the
pool's `Borrow` and `Return` calls.

Modelled from the spec: the worker pool (`work.WorkerPool`) and the work plan
(`work.Plan`), whose sources are not part of the repository. `Borrow`
"blocks until a worker is free or the context is cancelled", `Return`
"releases it"; `NextJob` answers with a job, or with `(nil, true)` while jobs
remain but none is ready, or with `(nil, false)` once no job remains. -/
structure Dispatch where
  /-- The idle workers of the pool. -/
  pool : List Worker
  /-- The answers `workPlan.NextJob()` gives, call after call. -/
  plan : List (Option Job × Bool)
  submittedJobs : List Job
  currentJobs : List (String × Job)
  /-- The goroutines launched by `run` that have not finished. -/
  running : List (Worker × Job)
  /-- The counter of the `sync.WaitGroup`. -/
  wg : Nat
  /-- The workers `Borrow` has handed out. -/
  borrowed : List Worker
  /-- The workers `Return` has been called on. -/
  returned : List Worker
  deriving DecidableEq, Repr

/-- The end of the goroutine `run` launches, once `runSingleJob` is over and
the result is sent or dropped: the worker leaves `currentJobs`, goes back to
the pool, and the wait group is released. -/
def finishJob (worker : Worker) (s : Dispatch) : Dispatch :=
  { s with
    currentJobs := s.currentJobs.filter (fun e => e.1 ≠ worker.ID)
    pool := s.pool ++ [worker]
    returned := s.returned ++ [worker]
    wg := s.wg - 1 }

/-- The call `pool.Borrow(ctx)`: nil on a cancelled context, else an idle
worker, waiting for the oldest running job to return its worker when none is
idle. The outer `none` is a `Borrow` that nothing will ever wake. -/
def Borrow (cancelled : Bool) (s : Dispatch) : Option (Option Worker × Dispatch) :=
  if cancelled then some (none, s)
  else
    match s.pool with
    | w :: idle => some (some w, { s with pool := idle, borrowed := s.borrowed ++ [w] })
    | [] =>
      match s.running with
      | [] => none
      | (w, _) :: others =>
        let s1 := finishJob w { s with running := others }
        some (some w, { s1 with pool := [], borrowed := s1.borrowed ++ [w] })

/-- The loop of `Scheduler.getNextJob` over the answers of the plan; an
answer `(nil, true)` sleeps and asks again. -/
def nextJobLoop : List (Option Job × Bool) → Option Job × List (Option Job × Bool)
  | [] => (none, [])
  | (some job, _) :: rest => (some job, rest)
  | (none, true) :: rest => nextJobLoop rest
  | (none, false) :: rest => (none, rest)

/-- The method `Scheduler.getNextJob`. -/
def getNextJob (cancelled : Bool) (s : Dispatch) : Option Job × Dispatch :=
  if cancelled then (none, s)
  else
    let r := nextJobLoop s.plan
    (r.1, { s with plan := r.2 })

/-- The method `Scheduler.run`: one round of the dispatcher. The result is
`none` when `Borrow` never returns. -/
def run (cancelled : Bool) (s : Dispatch) : Option (Bool × Dispatch) :=
  match Borrow cancelled s with
  | none => none
  | some (none, s1) => some (true, s1)
  | some (some worker, s1) =>
    match getNextJob cancelled s1 with
    | (none, s2) => some (true, s2)
    | (some nextJob, s2) =>
      some (false,
        { s2 with
          wg := s2.wg + 1
          submittedJobs := s2.submittedJobs ++ [nextJob]
          currentJobs := (s2.currentJobs.filter (fun e => e.1 ≠ worker.ID)) ++ [(worker.ID, nextJob)]
          running := s2.running ++ [(worker, nextJob)] })

/-- The loop `for !allJobsStarted` of `Schedule`, for at most `fuel` rounds. -/
def startJobs (cancelled : Bool) : Nat → Dispatch → Option Dispatch
  | 0, _ => none
  | fuel + 1, s =>
    match run cancelled s with
    | none => none
    | some (true, s1) => some s1
    | some (false, s1) => startJobs cancelled fuel s1

/-- The call `wg.Wait()`: every launched goroutine runs to its end. -/
def waitJobs : List (Worker × Job) → Dispatch → Dispatch
  | [], s => { s with running := [] }
  | (w, _) :: others, s => waitJobs others (finishJob w s)

/-- The dispatcher goroutine of `Scheduler.Schedule`: start the jobs, then
wait for them. Every round that starts a job uses up an answer of the plan,
so one round more than the plan has answers is enough. -/
def Schedule (cancelled : Bool) (s : Dispatch) : Option Dispatch :=
  match startJobs cancelled (s.plan.length + 1) s with
  | none => none
  | some s1 => some (waitJobs s1.running s1)

/-! ## `orchestrator/waiter.go` -/

/-- A channel the waiter made: `id` tells in which `make` call of the waiter
it was created, `closed` whether it has been closed. -/
structure Chan where
  id : Nat
  closed : Bool
  deriving DecidableEq, Repr

/-- The struct `waiterItem`; `closeOnce` tells whether the `sync.Once` has
already run. -/
structure waiterItem where
  StoreName : String
  BlockNum : Nat
  closeOnce : Bool
  waitChan : Chan
  deriving DecidableEq, Repr

/-- The Go runtime panic of closing a channel twice. -/
def closeOfClosedChannel : GoError :=
  .mk "close of closed channel" .plain none

/-- The method `waiterItem.Close`. -/
def waiterItem.Close (wi : waiterItem) : Except GoError waiterItem :=
  if wi.closeOnce then .ok wi
  else if wi.waitChan.closed then .error closeOfClosedChannel
  else .ok { wi with closeOnce := true, waitChan := { wi.waitChan with closed := true } }

/-- An item is satisfied once its channel is closed. -/
def waiterItem.satisfied (wi : waiterItem) : Bool :=
  wi.waitChan.closed

/-- The struct `BlockWaiter`; `setup` tells whether the `sync.Once` of `Wait`
has already run, `done` is `none` while the channel is nil. `made` counts the
channels the waiter has made and `goroutines` the goroutines it has started.
The goroutines are counted, not run: `done.closed` tells whether `Wait` itself
closed the channel. The close the goroutines perform later, once every item is
closed or the context is done, is not part of this state. -/
structure BlockWaiter where
  items : List waiterItem
  setup : Bool
  done : Option Chan
  made : Nat
  goroutines : Nat
  deriving DecidableEq, Repr

/-- What `NewWaiter` reads of a `pbsubstreams.Module`. -/
structure Module where
  Name : String
  InitialBlock : Nat
  deriving DecidableEq, Repr

/-- The function `NewWaiter`. -/
def NewWaiter (blockNum : Nat) (stores : List Module) : BlockWaiter :=
  let items := stores.foldl
    (fun (items : List waiterItem) store =>
      if blockNum ≤ store.InitialBlock then items
      else items ++ [{ StoreName := store.Name, BlockNum := blockNum, closeOnce := false,
                       waitChan := { id := items.length, closed := false } }])
    []
  { items := items, setup := false, done := none, made := items.length, goroutines := 0 }

/-- The method `BlockWaiter.Wait`. It returns the channel `w.done`, by its
id; the context is only handed to the goroutines. -/
def BlockWaiter.Wait (w : BlockWaiter) (_ctxErr : Option GoError) : Option Nat × BlockWaiter :=
  if w.setup then (w.done.map Chan.id, w)
  else
    let done : Chan := { id := w.made, closed := false }
    if w.items.length = 0 then
      (some done.id,
        { w with setup := true, done := some { done with closed := true }, made := w.made + 1 })
    else
      (some done.id,
        { w with setup := true, done := some done, made := w.made + 1,
                 goroutines := w.goroutines + 1 + w.items.length })

/-- The loop of `BlockWaiter.Signal` over the items. -/
def signalItems (storeName : String) (blockNum : Nat) :
    List waiterItem → Except GoError (List waiterItem)
  | [] => .ok []
  | waiter :: rest =>
    if waiter.StoreName ≠ storeName then
      (signalItems storeName blockNum rest).map (waiter :: ·)
    else if waiter.BlockNum > blockNum then
      (signalItems storeName blockNum rest).map (waiter :: ·)
    else
      match waiter.Close with
      | .error e => .error e
      | .ok closed => (signalItems storeName blockNum rest).map (closed :: ·)

/-- The method `BlockWaiter.Signal`. -/
def BlockWaiter.Signal (w : BlockWaiter) (storeName : String) (blockNum : Nat) :
    Except GoError BlockWaiter :=
  (signalItems storeName blockNum w.items).map (fun items => { w with items := items })

/-- The specification's reading of a signal on one item: an item of the
signalled store whose required block is at most the signalled block becomes
satisfied, any other item stays as it is. -/
def waiterItem.markSatisfied (wi : waiterItem) (storeName : String) (blockNum : Nat) :
    waiterItem :=
  if wi.StoreName = storeName ∧ wi.BlockNum ≤ blockNum then
    { wi with closeOnce := true, waitChan := { wi.waitChan with closed := true } }
  else wi

/-- The waiter after further calls of `Wait`, one per context in the list. -/
def waitAgain (w : BlockWaiter) (ctxs : List (Option GoError)) : BlockWaiter :=
  ctxs.foldl (fun v ctxErr => (v.Wait ctxErr).2) w

/-- The method `BlockWaiter.Size`. -/
def BlockWaiter.Size (w : BlockWaiter) : Nat :=
  w.items.length

/-- The invariant of a waiter's items: a channel is closed exactly when the
item's `closeOnce` has run, since `Close` is the only place that closes it. -/
def BlockWaiter.closedOnce (w : BlockWaiter) : Prop :=
  ∀ wi ∈ w.items, wi.closeOnce = wi.waitChan.closed

instance (w : BlockWaiter) : Decidable w.closedOnce := by
  unfold BlockWaiter.closedOnce; infer_instance

/-! ## Sample values -/

/-- A Call of module `moduleName` with the given update policy and value type
and a nil output store. -/
def storelessCall (moduleName : String) (policy : UpdatePolicy) (valueType : String) : Call :=
  { moduleName := moduleName, entrypoint := "run", inputStores := [], outputStore := none,
    updatePolicy := policy, valueType := valueType, returnValue := [], panicError := none,
    Logs := [], LogsByteCount := 0, ExecutionStack := [] }

/-- A Call of module `moduleName` that writes to an output store declared with
the given update policy and value type. -/
def sampleCall (moduleName : String) (policy : UpdatePolicy) (valueType : String) : Call :=
  { moduleName := moduleName, entrypoint := "run", inputStores := [],
    outputStore := some { Name := "out", String := "out (0000)" },
    updatePolicy := policy, valueType := valueType, returnValue := [], panicError := none,
    Logs := [], LogsByteCount := 0, ExecutionStack := [] }

/-- The job of module `A` over the blocks `[0, 10)`. -/
def jobA : Job := { ModuleName := "A", StartBlock := 0, ExclusiveEndBlock := 10 }

/-- A pool with one idle worker and a plan without jobs. -/
def idleDispatch : Dispatch :=
  { pool := [{ ID := "w1" }], plan := [], submittedJobs := [], currentJobs := [], running := [],
    wg := 0, borrowed := [], returned := [] }

/-- A pool with two idle workers and a plan of one job. -/
def oneJobDispatch : Dispatch :=
  { pool := [{ ID := "w1" }, { ID := "w2" }], plan := [(some jobA, false)],
    submittedJobs := [], currentJobs := [], running := [],
    wg := 0, borrowed := [], returned := [] }

/-- A successful result whose list of partial files is allocated and empty. -/
def emptyFilesResult : jobResult :=
  { job := some jobA, partialsWritten := some [], err := none }

/-- A successful result with one partial file. -/
def oneFileResult : jobResult :=
  { job := some jobA, partialsWritten := some [{ Filename := "0000000000-0000000010.partial" }],
    err := none }

/-- A transient failure of a worker. -/
def retryableErr : GoError := .mk "rpc timeout" .retryable none

/-- A result of module `A` that ended in an error. -/
def failedResult : jobResult :=
  { job := some jobA, partialsWritten := none, err := some retryableErr }

/-- A callback that accepts every store job. -/
def acceptAll : StoreJobCallback := fun _ _ _ => none

/-- A callback that fails on every store job. -/
def squashFails : StoreJobCallback := fun _ _ _ => some (.mk "squash failed" .plain none)

/-- A worker that fails twice with a retryable error and then succeeds. -/
def flakyWorker : Nat → WorkResult
  | 0 => { PartialFilesWritten := none, Error := some retryableErr }
  | 1 => { PartialFilesWritten := none, Error := some retryableErr }
  | _ => { PartialFilesWritten := some [{ Filename := "0000000000-0000000010.partial" }],
           Error := none }

/-- A waiter at block 10 on the stores `A` (from block 0) and `B` (from block 5). -/
def waiterAB : BlockWaiter :=
  NewWaiter 10 [{ Name := "A", InitialBlock := 0 }, { Name := "B", InitialBlock := 5 }]

/-- A waiter at block 10 on a store that only starts at block 10: no item. -/
def waiterNone : BlockWaiter :=
  NewWaiter 10 [{ Name := "A", InitialBlock := 10 }]

/-- The error of a guest that trapped. -/
def guestTrap : GoError := .mk "wasm error: unreachable" .plain none

/-- The panic a host function captured. -/
def hostPanic : GoError :=
  .mk "module \"m\": invalid store operation \"set\", only valid for stores with updatePolicy == \"replace\""
    .plain none

/-- A guest that returns normally. -/
def guestReturns : Call → List Nat → Nat → Call × Option GoError :=
  fun call _ _ => (call, none)

/-- A guest that traps on its own. -/
def guestTraps : Call → List Nat → Nat → Call × Option GoError :=
  fun call _ _ => (call, some guestTrap)

/-- A guest that is aborted by a panic of a host function. -/
def guestPanics : Call → List Nat → Nat → Call × Option GoError :=
  fun call _ _ => ({ call with panicError := some hostPanic }, some guestTrap)

/-- A module whose memory is a bump allocator and which exports three
entrypoints. -/
def sampleModule : WasmModule Nat :=
  { instantiateModule := .ok 0
    ExportedFunction := fun name =>
      if name = "returns" then some guestReturns
      else if name = "traps" then some guestTraps
      else if name = "panics" then some guestPanics
      else none
    writeToHeap := fun heap bytes _ => (heap, heap + bytes.length) }

/-- Two value arguments, two store readers and a store writer. -/
def sampleArguments : List Argument :=
  [ .ValueArgument "block" [1, 2, 3],
    .StoreWriterOutput "out" (some { Name := "out", String := "out (0000)" }) .ADD "int64",
    .StoreReaderInput "prices" { Name := "prices", String := "prices (0000)" },
    .ValueArgument "clock" [9],
    .StoreReaderInput "pairs" { Name := "pairs", String := "pairs (0000)" } ]

/-! ## Properties of the store-operation validators -/

theorem appendEscapedRune_plain (wide : Nat → Bool) (r : Char) (h : plainRune r = true) :
    appendEscapedRune wide r = [r] := by
  simp only [plainRune, Bool.and_eq_true, decide_eq_true_eq, bne_iff_ne, ne_eq] at h
  obtain ⟨⟨⟨h1, h2⟩, h3⟩, h4⟩ := h
  have hp : IsPrint wide r.toNat = true := by
    unfold IsPrint
    have : r.toNat ≤ 0xFF := by omega
    simp [this, h1, h2]
  simp [appendEscapedRune, h3, h4, hp]

theorem escapeRunes_plain (wide : Nat → Bool) (l : List Char) (h : l.all plainRune = true) :
    escapeRunes wide l = l := by
  induction l with
  | nil => rfl
  | cons r rs ih =>
    simp only [List.all_cons, Bool.and_eq_true] at h
    simp [escapeRunes, appendEscapedRune_plain wide r h.1, ih h.2]

/-- On plain text `%q` only adds the two double quotes. -/
theorem goQuote_plain (wide : Nat → Bool) (s : String) (h : plainText s = true) :
    goQuote wide s = "\"" ++ s ++ "\"" := by
  unfold goQuote
  rw [escapeRunes_plain wide s.data h]
  apply String.ext
  simp [String.data_append]

theorem HostOp.name_plain (op : HostOp) : plainText op.name = true := by
  cases op <;> decide

theorem returnInvalidPolicy_text (wide : Nat → Bool) (c : Call) (stateFunc policy : String)
    (h : plainText stateFunc = true) :
    (c.returnInvalidPolicy wide stateFunc policy).Error =
      "module " ++ goQuote wide c.moduleName ++ ": invalid store operation \"" ++ stateFunc
        ++ "\", only valid for stores with " ++ policy := by
  simp only [Call.returnInvalidPolicy, GoError.Error, goQuote_plain wide stateFunc h]
  apply String.ext
  simp [String.data_append]

theorem invalidPolicy_contains_operation (wide : Nat → Bool) (c : Call)
    (stateFunc policy : String) (h : plainText stateFunc = true) :
    containsText (c.returnInvalidPolicy wide stateFunc policy).Error
      ("invalid store operation \"" ++ stateFunc ++ "\"") := by
  rw [returnInvalidPolicy_text wide c stateFunc policy h]
  refine ⟨("module " ++ goQuote wide c.moduleName ++ ": ").data,
    (", only valid for stores with " ++ policy).data, ?_⟩
  simp [String.data_append]

theorem invalidPolicy_contains_quoted (wide : Nat → Bool) (c : Call)
    (stateFunc policy : String) :
    containsText (c.returnInvalidPolicy wide stateFunc policy).Error
      (goQuote wide c.moduleName) := by
  refine ⟨"module ".data, (": invalid store operation "
        ++ goQuote wide stateFunc ++ ", only valid for stores with " ++ policy).data, ?_⟩
  simp [Call.returnInvalidPolicy, GoError.Error, String.data_append]

theorem invalidPolicy_contains_name (wide : Nat → Bool) (c : Call) (stateFunc policy : String)
    (h : plainText c.moduleName = true) :
    containsText (c.returnInvalidPolicy wide stateFunc policy).Error c.moduleName := by
  refine ⟨"module \"".data, ("\": invalid store operation "
        ++ goQuote wide stateFunc ++ ", only valid for stores with " ++ policy).data, ?_⟩
  simp [Call.returnInvalidPolicy, GoError.Error, String.data_append, goQuote_plain wide _ h]

/-- The trace line is written exactly when the Call has an output store. -/
theorem traceStateWrites_panic (wide : Nat → Bool) (c : Call) (stateFunc key : String) :
    (c.traceStateWrites wide stateFunc key).panic = none ↔ c.outputStore ≠ none := by
  unfold Call.traceStateWrites
  cases c.outputStore <;> simp

theorem traceStateWrites_without_store (wide : Nat → Bool) (c : Call) (stateFunc key : String)
    (h : c.outputStore = none) :
    c.traceStateWrites wide stateFunc key = { call := c, panic := some nilDereference } := by
  simp [Call.traceStateWrites, h]

theorem validateSimple_allowed (wide : Nat → Bool) (c : Call) (stateFunc key : String)
    (p : UpdatePolicy) (h : c.updatePolicy = p) :
    c.validateSimple wide stateFunc p key = c.traceStateWrites wide stateFunc key := by
  simp [Call.validateSimple, h]

theorem validateWithValueType_allowed (wide : Nat → Bool) (c : Call)
    (stateFunc key vt : String) (p : UpdatePolicy)
    (h : c.updatePolicy = p ∧ c.valueType = vt) :
    c.validateWithValueType wide stateFunc p vt key
      = c.traceStateWrites wide stateFunc key := by
  simp [Call.validateWithValueType, h.1, h.2]

theorem validateWithTwoValueTypes_allowed (wide : Nat → Bool) (c : Call)
    (stateFunc key vt1 vt2 : String) (p : UpdatePolicy)
    (h : c.updatePolicy = p ∧ (c.valueType = vt1 ∨ c.valueType = vt2)) :
    c.validateWithTwoValueTypes wide stateFunc p vt1 vt2 key
      = c.traceStateWrites wide stateFunc key := by
  have hcond : ¬ (c.updatePolicy ≠ p ∨ (c.valueType ≠ vt1 ∧ c.valueType ≠ vt2)) := by
    rintro (h1 | ⟨h2, h3⟩)
    · exact h1 h.1
    · rcases h.2 with h4 | h4
      · exact h2 h4
      · exact h3 h4
  unfold Call.validateWithTwoValueTypes
  rw [if_neg hcond]

/-- A validator whose guard lets the Call through ends in `traceStateWrites`. -/
theorem validator_allowed (wide : Nat → Bool) (c : Call) (op : HostOp) (key : String)
    (h : validatorAllows op c.updatePolicy c.valueType) :
    op.validator wide c key = c.traceStateWrites wide op.name key := by
  cases op <;>
    first
    | exact validateSimple_allowed wide c _ key _ h
    | exact validateWithValueType_allowed wide c _ key _ _ h
    | exact validateWithTwoValueTypes_allowed wide c _ key _ _ _ h

theorem validateSimple_rejected (wide : Nat → Bool) (c : Call) (stateFunc key : String)
    (p : UpdatePolicy) (h : ¬ c.updatePolicy = p) :
    ∃ req, c.validateSimple wide stateFunc p key =
      { call := c, panic := some (c.returnInvalidPolicy wide stateFunc req) } :=
  ⟨"updatePolicy == " ++ goQuote wide (policyMap p), by simp [Call.validateSimple, h]⟩

theorem validateWithValueType_rejected (wide : Nat → Bool) (c : Call)
    (stateFunc key vt : String) (p : UpdatePolicy)
    (h : ¬ (c.updatePolicy = p ∧ c.valueType = vt)) :
    ∃ req, c.validateWithValueType wide stateFunc p vt key =
      { call := c, panic := some (c.returnInvalidPolicy wide stateFunc req) } := by
  refine ⟨"updatePolicy == " ++ goQuote wide (policyMap p)
        ++ " and valueType == " ++ goQuote wide vt, ?_⟩
  unfold Call.validateWithValueType
  rw [if_pos (not_and_or.1 h)]

theorem validateWithTwoValueTypes_rejected (wide : Nat → Bool) (c : Call)
    (stateFunc key vt1 vt2 : String) (p : UpdatePolicy)
    (h : ¬ (c.updatePolicy = p ∧ (c.valueType = vt1 ∨ c.valueType = vt2))) :
    ∃ req, c.validateWithTwoValueTypes wide stateFunc p vt1 vt2 key =
      { call := c, panic := some (c.returnInvalidPolicy wide stateFunc req) } := by
  refine ⟨"updatePolicy == " ++ goQuote wide (policyMap p)
        ++ " and valueType == " ++ goQuote wide vt1, ?_⟩
  have hcond : c.updatePolicy ≠ p ∨ (c.valueType ≠ vt1 ∧ c.valueType ≠ vt2) := by
    rcases not_and_or.1 h with h1 | h2
    · exact Or.inl h1
    · exact Or.inr (not_or.1 h2)
  unfold Call.validateWithTwoValueTypes
  rw [if_pos hcond]

/-- A validator whose guard fails panics with the invalid-policy error, before
anything is written to the Call. -/
theorem validator_rejected (wide : Nat → Bool) (c : Call) (op : HostOp) (key : String)
    (h : ¬ validatorAllows op c.updatePolicy c.valueType) :
    ∃ req, op.validator wide c key =
      { call := c, panic := some (c.returnInvalidPolicy wide op.name req) } := by
  cases op <;>
    first
    | exact validateSimple_rejected wide c _ key _ h
    | exact validateWithValueType_rejected wide c _ key _ _ h
    | exact validateWithTwoValueTypes_rejected wide c _ key _ _ _ h

theorem returnInvalidPolicy_ne_nilDereference (wide : Nat → Bool) (c : Call)
    (stateFunc policy : String) :
    c.returnInvalidPolicy wide stateFunc policy ≠ nilDereference := by
  intro h
  have h1 := congrArg (fun e => e.Error.data) h
  simp [Call.returnInvalidPolicy, nilDereference, GoError.Error, String.data_append] at h1

/-- The guard `validatorAllows` fails exactly when the validator panics through
`returnInvalidPolicy`. -/
theorem validator_rejects_iff (wide : Nat → Bool) (c : Call) (op : HostOp) (key : String) :
    (∃ req, (op.validator wide c key).panic = some (c.returnInvalidPolicy wide op.name req))
      ↔ ¬ validatorAllows op c.updatePolicy c.valueType := by
  constructor
  · rintro ⟨req, hreq⟩ hallow
    rw [validator_allowed wide c op key hallow] at hreq
    cases hs : c.outputStore with
    | none =>
      rw [traceStateWrites_without_store wide c op.name key hs] at hreq
      simp only [Option.some.injEq] at hreq
      exact returnInvalidPolicy_ne_nilDereference wide c op.name req hreq.symm
    | some st =>
      have := (traceStateWrites_panic wide c op.name key).2 (by simp [hs])
      rw [this] at hreq
      cases hreq
  · intro h
    obtain ⟨req, hr⟩ := validator_rejected wide c op key h
    exact ⟨req, by rw [hr]⟩

/-- Apart from `append`, the validators let through exactly the rows of the
taxonomy table. -/
theorem validatorAllows_iff_specAllows (op : HostOp) (p : UpdatePolicy) (vt : String)
    (hop : op ≠ HostOp.append) : validatorAllows op p vt ↔ specAllows op p vt := by
  cases op <;> first | exact absurd rfl hop | exact Iff.rfl

/-- C1, as stated, fails: on a Call with policy SET and a nil output store the
row of `set` matches, and `validateSetStore` still panics, on the nil store in
`traceStateWrites`. -/
theorem validateSetStore_panics_without_store :
    HostOp.set ≠ HostOp.append ∧
    specAllows .set (storelessCall "m" .SET "bytes").updatePolicy
      (storelessCall "m" .SET "bytes").valueType ∧
    (HostOp.set.validator (fun _ => false) (storelessCall "m" .SET "bytes") "k").panic
      = some nilDereference ∧
    (HostOp.set.validator (fun _ => false) (storelessCall "m" .SET "bytes") "k").panic ≠ none :=
  ⟨by decide, rfl, by decide, by decide⟩

/-- C1, amended: for every Call and every host store operation other than
`append`, the validator returns without panicking if and only if the Call's
update policy and value type match the operation's row of the taxonomy table
and the Call has an output store; so for a Call with an output store, if and
only if the row matches. When the row does not match, the validator panics
with the invalid-policy error; when it matches and the output store is nil,
with the nil dereference of `traceStateWrites`. -/
theorem validator_accepts_iff_table_row (wide : Nat → Bool) (c : Call) (key : String)
    (op : HostOp) (hop : op ≠ HostOp.append) :
    ((op.validator wide c key).panic = none ↔
      specAllows op c.updatePolicy c.valueType ∧ c.outputStore ≠ none) ∧
    (c.outputStore ≠ none →
      ((op.validator wide c key).panic = none ↔ specAllows op c.updatePolicy c.valueType)) ∧
    (¬ specAllows op c.updatePolicy c.valueType →
      ∃ req, op.validator wide c key =
        { call := c, panic := some (c.returnInvalidPolicy wide op.name req) }) ∧
    (specAllows op c.updatePolicy c.valueType → c.outputStore = none →
      op.validator wide c key = { call := c, panic := some nilDereference }) := by
  have hiff := validatorAllows_iff_specAllows op c.updatePolicy c.valueType hop
  have hmain : (op.validator wide c key).panic = none ↔
      specAllows op c.updatePolicy c.valueType ∧ c.outputStore ≠ none := by
    by_cases hs : specAllows op c.updatePolicy c.valueType
    · rw [validator_allowed wide c op key (hiff.2 hs), traceStateWrites_panic]
      simp [hs]
    · obtain ⟨req, hr⟩ := validator_rejected wide c op key (fun h => hs (hiff.1 h))
      simp [hr, hs]
  refine ⟨hmain, ?_, ?_, ?_⟩
  · intro hstore
    rw [hmain]
    exact ⟨fun h => h.1, fun h => ⟨h, hstore⟩⟩
  · intro hs
    exact validator_rejected wide c op key (fun h => hs (hiff.1 h))
  · intro hs hnone
    rw [validator_allowed wide c op key (hiff.2 hs)]
    exact traceStateWrites_without_store wide c op.name key hnone

/-- C1, amended, at `add_bigdecimal` on a store declared ADD / bigfloat. -/
theorem validator_accepts_iff_table_row_witness :
    HostOp.add_bigdecimal ≠ HostOp.append ∧
    (sampleCall "m" .ADD "bigfloat").outputStore ≠ none ∧
    specAllows .add_bigdecimal (sampleCall "m" .ADD "bigfloat").updatePolicy
      (sampleCall "m" .ADD "bigfloat").valueType ∧
    (HostOp.add_bigdecimal.validator (fun _ => false) (sampleCall "m" .ADD "bigfloat") "k").panic
      = none :=
  ⟨by decide, by decide, ⟨rfl, Or.inr rfl⟩,
    ((validator_accepts_iff_table_row (fun _ => false) (sampleCall "m" .ADD "bigfloat") "k"
      .add_bigdecimal (by decide)).2.1 (by decide)).2 ⟨rfl, Or.inr rfl⟩⟩

/-- C2, as stated, fails both ways: on a store declared APPEND / int64
`validateAppend` returns without panicking, although the table row of `append`
asks for bytes or string; and on a Call with policy APPEND, value type bytes
and a nil output store it panics, although the row matches. -/
theorem validateAppend_accepts_int64 :
    (((sampleCall "m" .APPEND "int64").validateAppend (fun _ => false) "k").panic = none ∧
      ¬ specAllows .append (sampleCall "m" .APPEND "int64").updatePolicy
          (sampleCall "m" .APPEND "int64").valueType) ∧
    (specAllows .append (storelessCall "m" .APPEND "bytes").updatePolicy
        (storelessCall "m" .APPEND "bytes").valueType ∧
      ((storelessCall "m" .APPEND "bytes").validateAppend (fun _ => false) "k").panic
        = some nilDereference) := by
  refine ⟨⟨rfl, ?_⟩, ⟨rfl, Or.inl rfl⟩, by decide⟩
  simp [specAllows, sampleCall]

/-- C2, amended: `validateAppend` returns without panicking if and only if the
Call's update policy is APPEND and the Call has an output store, whatever its
value type; so for a Call with an output store, if and only if the policy is
APPEND. With another policy it panics with the invalid-policy error. -/
theorem validateAppend_accepts_iff_policy (wide : Nat → Bool) (c : Call) (key : String) :
    ((c.validateAppend wide key).panic = none ↔
      c.updatePolicy = .APPEND ∧ c.outputStore ≠ none) ∧
    (c.outputStore ≠ none →
      ((c.validateAppend wide key).panic = none ↔ c.updatePolicy = .APPEND)) ∧
    (c.updatePolicy ≠ .APPEND →
      ∃ req, c.validateAppend wide key =
        { call := c, panic := some (c.returnInvalidPolicy wide "append" req) }) := by
  have hmain : (c.validateAppend wide key).panic = none ↔
      c.updatePolicy = .APPEND ∧ c.outputStore ≠ none := by
    by_cases hp : c.updatePolicy = .APPEND
    · have h := validator_allowed wide c .append key hp
      simp only [HostOp.validator, HostOp.name] at h
      rw [h, traceStateWrites_panic]
      simp [hp]
    · obtain ⟨req, hr⟩ := validateSimple_rejected wide c "append" key .APPEND hp
      simp only [Call.validateAppend, hr]
      simp [hp]
  refine ⟨hmain, ?_, ?_⟩
  · intro hstore
    rw [hmain]
    exact ⟨fun h => h.1, fun h => ⟨h, hstore⟩⟩
  · intro hp
    exact validateSimple_rejected wide c "append" key .APPEND hp

/-- C2, amended, on a store declared APPEND / int64. -/
theorem validateAppend_accepts_iff_policy_witness :
    (sampleCall "m" .APPEND "int64").outputStore ≠ none ∧
    (sampleCall "m" .APPEND "int64").updatePolicy = .APPEND ∧
    ((sampleCall "m" .APPEND "int64").validateAppend (fun _ => false) "k").panic = none :=
  ⟨by decide, rfl,
    ((validateAppend_accepts_iff_policy (fun _ => false) (sampleCall "m" .APPEND "int64")
      "k").2.1 (by decide)).2 rfl⟩

set_option maxRecDepth 8000 in
/-- C3, as stated, fails: for the module name `a"b`, the error of a rejected
`set` prints the name escaped, and its text does not contain the name. -/
theorem rejected_set_text_lacks_raw_name :
    (((sampleCall "a\"b" .ADD "int64").validateSetStore (fun _ => false) "k").panic.map
        GoError.Error
      = some "module \"a\\\"b\": invalid store operation \"set\", only valid for stores with updatePolicy == \"replace\"") ∧
    ¬ containsText "module \"a\\\"b\": invalid store operation \"set\", only valid for stores with updatePolicy == \"replace\""
        (sampleCall "a\"b" .ADD "int64").moduleName :=
  ⟨by decide, by decide⟩

/-- C3, amended: for every Call, with or without an output store, when the
guard of the validator of operation `X` fails, the call aborts with an error
whose text is `module <name>: invalid store operation "X", only valid for
stores with <requirement>`, `<name>` being the module name as `%q` prints it.
The text contains `invalid store operation "X"` and the quoted module name;
for a module name of plain text the quoted name is the name between double
quotes, and the text contains the name. No trace line is appended to
`ExecutionStack`. -/
theorem rejected_operation_error (wide : Nat → Bool) (c : Call) (op : HostOp) (key : String)
    (h : ¬ validatorAllows op c.updatePolicy c.valueType) :
    ∃ e req, (op.validator wide c key).panic = some e ∧
      e.Error = "module " ++ goQuote wide c.moduleName ++ ": invalid store operation \""
        ++ op.name ++ "\", only valid for stores with " ++ req ∧
      containsText e.Error ("invalid store operation \"" ++ op.name ++ "\"") ∧
      containsText e.Error (goQuote wide c.moduleName) ∧
      (plainText c.moduleName = true →
        goQuote wide c.moduleName = "\"" ++ c.moduleName ++ "\"" ∧
        containsText e.Error c.moduleName) ∧
      (op.validator wide c key).call.ExecutionStack = c.ExecutionStack := by
  obtain ⟨req, hr⟩ := validator_rejected wide c op key h
  refine ⟨c.returnInvalidPolicy wide op.name req, req, by rw [hr], ?_, ?_, ?_, ?_, by rw [hr]⟩
  · exact returnInvalidPolicy_text wide c op.name req op.name_plain
  · exact invalidPolicy_contains_operation wide c op.name req op.name_plain
  · exact invalidPolicy_contains_quoted wide c op.name req
  · intro hp
    exact ⟨goQuote_plain wide _ hp, invalidPolicy_contains_name wide c op.name req hp⟩

/-- C3, amended, for a Call with policy ADD, value type int64 and no output
store, on which `set` is invoked. -/
theorem rejected_operation_error_witness :
    ¬ validatorAllows .set (storelessCall "m" .ADD "int64").updatePolicy
        (storelessCall "m" .ADD "int64").valueType ∧
    plainText (storelessCall "m" .ADD "int64").moduleName = true ∧
    ∃ e,
      (HostOp.set.validator (fun _ => false) (storelessCall "m" .ADD "int64") "k").panic
        = some e ∧
      containsText e.Error ("invalid store operation \"" ++ HostOp.set.name ++ "\"") ∧
      containsText e.Error (storelessCall "m" .ADD "int64").moduleName ∧
      (HostOp.set.validator (fun _ => false) (storelessCall "m" .ADD "int64") "k").call.ExecutionStack
        = (storelessCall "m" .ADD "int64").ExecutionStack := by
  have hrej : ¬ validatorAllows .set (storelessCall "m" .ADD "int64").updatePolicy
      (storelessCall "m" .ADD "int64").valueType := by
    simp [validatorAllows, storelessCall]
  obtain ⟨e, _, h1, _, h3, _, h5, h6⟩ :=
    rejected_operation_error (fun _ => false) (storelessCall "m" .ADD "int64") .set "k" hrej
  exact ⟨hrej, by decide, e, h1, h3, (h5 (by decide)).2, h6⟩

/-! ## Properties of the scheduler -/

/-- A round of `run` that borrows a worker and gets no job from the plan ends
the dispatching, with one `Borrow` more and no `Return`. -/
theorem run_no_job (s : Dispatch) (w : Worker) (idle : List Worker)
    (hpool : s.pool = w :: idle) (hplan : (nextJobLoop s.plan).1 = none) :
    (run false s).map (fun r => (r.1, r.2.borrowed, r.2.returned))
      = some (true, s.borrowed ++ [w], s.returned) := by
  simp [run, Borrow, getNextJob, hpool, hplan]

/-- C4: the code breaks the pool accounting. A round of `run` that borrows a
worker and then finds no job returns `true` with the worker still borrowed:
on a pool of one idle worker and a plan without jobs, `Schedule` ends with one
`Borrow` and no `Return`; with two workers and one job, the worker of the job
is returned and the second worker is not. -/
theorem run_without_job_keeps_worker :
    (run false idleDispatch).map (fun r => (r.1, r.2.borrowed, r.2.returned, r.2.pool))
      = some (true, [{ ID := "w1" }], [], []) ∧
    (Schedule false idleDispatch).map (fun s => (s.borrowed.length, s.returned.length))
      = some (1, 0) ∧
    (Schedule false oneJobDispatch).map (fun s => (s.borrowed, s.returned))
      = some ([{ ID := "w1" }, { ID := "w2" }], [{ ID := "w1" }]) := by
  decide

theorem processJobResult_not_blocked (cb : StoreJobCallback) (log : List Invocation)
    (r : jobResult) : (processJobResult cb log r).2 ≠ .blocked := by
  unfold processJobResult
  split
  · simp
  · split
    · split
      · simp
      · split <;> simp
    · simp

theorem gatherResults_append (wide : Nat → Bool) (cb : StoreJobCallback)
    (pre : List SelectEvent) :
    ∀ (log log1 : List Invocation) (evs : List SelectEvent),
      gatherResults wide cb log pre = (log1, .blocked) →
      gatherResults wide cb log (pre ++ evs) = gatherResults wide cb log1 evs := by
  induction pre with
  | nil =>
    intro log log1 evs h
    simp only [gatherResults, Prod.mk.injEq, and_true] at h
    simp [h]
  | cons ev pre ih =>
    intro log log1 evs h
    cases ev with
    | ctxDone err => simp [gatherResults] at h
    | closed => simp [gatherResults] at h
    | recv r =>
      simp only [List.cons_append, gatherResults] at h ⊢
      split at h
      · simp at h
      · exact ih _ _ _ h
      · simp at h
      · rename_i lg heq
        exact absurd (congrArg Prod.snd heq) (processJobResult_not_blocked cb log r)

theorem gatherResults_recv_error (wide : Nat → Bool) (cb : StoreJobCallback)
    (log : List Invocation) (result : jobResult) (err : GoError) (rest : List SelectEvent)
    (herr : result.err = some err) :
    gatherResults wide cb log (.recv result :: rest) =
      (log, .returned (some (errorfW
        ("process job result for module " ++ goQuote wide result.moduleName ++ ": ")
        (errorfW "job ended in error: " err)))) := by
  simp only [gatherResults, processJobResult, herr, jobResult.moduleName]

theorem chain_head (e : GoError) : e ∈ e.chain := by
  cases e with
  | mk t k inner =>
    cases inner <;> simp [GoError.chain]

theorem wraps_errorfW (pre : String) (e target : GoError) (h : Wraps e target) :
    Wraps (errorfW pre e) target := by
  unfold Wraps errorfW at *
  simp [GoError.chain, h]

/-- C5: whatever `gatherResults` has processed before (`pre`, after which it
is still in its loop), a received result that carries the error `err` ends it:
it returns an error that wraps `err` and whose text is exactly
`process job result for module "X": job ended in error: <err>`, where `"X"`
is the module name as `%q` prints it (the name between double quotes when it
is plain text) and the name is `unknown` for a result without job; the
callback `OnStoreJobTerminated` is not invoked for that result. -/
theorem gatherResults_job_error (wide : Nat → Bool) (OnStoreJobTerminated : StoreJobCallback)
    (log log1 : List Invocation) (pre rest : List SelectEvent) (result : jobResult)
    (err : GoError)
    (hpre : gatherResults wide OnStoreJobTerminated log pre = (log1, .blocked))
    (herr : result.err = some err) :
    ∃ e, gatherResults wide OnStoreJobTerminated log (pre ++ .recv result :: rest)
          = (log1, .returned (some e)) ∧
      Wraps e err ∧
      e.Error = "process job result for module " ++ goQuote wide result.moduleName
        ++ ": job ended in error: " ++ err.Error ∧
      (plainText result.moduleName = true →
        e.Error = "process job result for module \"" ++ result.moduleName
          ++ "\": job ended in error: " ++ err.Error) ∧
      (result.job = none → result.moduleName = "unknown") ∧
      (∀ job, result.job = some job → result.moduleName = job.ModuleName) ∧
      (processJobResult OnStoreJobTerminated log1 result).1 = log1 := by
  refine ⟨errorfW ("process job result for module " ++ goQuote wide result.moduleName ++ ": ")
    (errorfW "job ended in error: " err), ?_, ?_, ?_, ?_, ?_, ?_, ?_⟩
  · rw [gatherResults_append wide _ pre log log1 _ hpre,
      gatherResults_recv_error wide _ log1 result err rest herr]
  · exact wraps_errorfW _ _ _ (wraps_errorfW _ _ _ (chain_head err))
  · simp only [errorfW, GoError.Error]
    apply String.ext
    simp [String.data_append]
  · intro hp
    simp only [errorfW, GoError.Error, goQuote_plain wide _ hp]
    apply String.ext
    simp [String.data_append]
  · intro h; simp [jobResult.moduleName, h]
  · intro job h; simp [jobResult.moduleName, h]
  · simp [processJobResult, herr]

/-- C5 after one successful result, on a failed result of module `A`. -/
theorem gatherResults_job_error_witness :
    gatherResults (fun _ => false) acceptAll [] [.recv oneFileResult]
      = ([{ moduleName := "A", partialFilesWritten := oneFileResult.partialsWritten }], .blocked) ∧
    failedResult.err = some retryableErr ∧
    ∃ e, gatherResults (fun _ => false) acceptAll []
          ([.recv oneFileResult] ++ .recv failedResult :: [.recv oneFileResult, .closed])
          = ([{ moduleName := "A", partialFilesWritten := oneFileResult.partialsWritten }],
              .returned (some e)) ∧
      Wraps e retryableErr ∧
      e.Error = "process job result for module \"A\": job ended in error: rpc timeout" := by
  obtain ⟨e, h1, h2, _, h3, _⟩ :=
    gatherResults_job_error (fun _ => false) acceptAll []
      [{ moduleName := "A", partialFilesWritten := oneFileResult.partialsWritten }]
      [.recv oneFileResult] [.recv oneFileResult, .closed] failedResult retryableErr
      (by decide) (by decide)
  exact ⟨by decide, by decide, e, h1, h2, h3 (by decide)⟩

/-- C6, as stated, fails: a successful result whose list of partial files is
allocated but empty still invokes `OnStoreJobTerminated`. -/
theorem processJobResult_calls_on_empty_files :
    emptyFilesResult.err = none ∧ emptyFilesResult.partialsWritten = some [] ∧
    (processJobResult acceptAll [] emptyFilesResult).1
      = [{ moduleName := "A", partialFilesWritten := some [] }] := by
  decide

/-- C6, amended: for a result with a nil error, `processJobResult` invokes
`OnStoreJobTerminated` if and only if the list of partial files is not nil,
then exactly once, with the job's module name and those files; when the
callback returns an error `e` it returns an error wrapping `e` with text
`on job terminated: <e>`, and otherwise it returns nil. -/
theorem processJobResult_success (OnStoreJobTerminated : StoreJobCallback)
    (log : List Invocation) (result : jobResult) (job : Job)
    (herr : result.err = none) (hjob : result.job = some job) :
    ((processJobResult OnStoreJobTerminated log result).1 ≠ log ↔ result.partialsWritten ≠ none) ∧
    (result.partialsWritten = none →
      processJobResult OnStoreJobTerminated log result = (log, .returned none)) ∧
    (∀ files, result.partialsWritten = some files →
      (processJobResult OnStoreJobTerminated log result).1
        = log ++ [{ moduleName := job.ModuleName, partialFilesWritten := some files }] ∧
      (OnStoreJobTerminated log job.ModuleName (some files) = none →
        (processJobResult OnStoreJobTerminated log result).2 = .returned none) ∧
      (∀ e, OnStoreJobTerminated log job.ModuleName (some files) = some e →
        ∃ e1, (processJobResult OnStoreJobTerminated log result).2 = .returned (some e1) ∧
          Wraps e1 e ∧ e1.Error = "on job terminated: " ++ e.Error)) := by
  refine ⟨?_, ?_, ?_⟩
  · cases hp : result.partialsWritten with
    | none => simp [processJobResult, herr, hp]
    | some files =>
      cases hcb : OnStoreJobTerminated log job.ModuleName (some files) <;>
        simp [processJobResult, herr, hp, hjob, hcb]
  · intro hp
    simp [processJobResult, herr, hp]
  · intro files hp
    refine ⟨?_, ?_, ?_⟩
    · cases hcb : OnStoreJobTerminated log job.ModuleName (some files) <;>
        simp [processJobResult, herr, hp, hjob, hcb]
    · intro hcb
      simp [processJobResult, herr, hp, hjob, hcb]
    · intro e hcb
      refine ⟨errorfW "on job terminated: " e, ?_, wraps_errorfW _ _ _ (chain_head e), rfl⟩
      simp [processJobResult, herr, hp, hjob, hcb]

/-- C6, amended, on a result with one partial file and a failing callback. -/
theorem processJobResult_success_witness :
    oneFileResult.err = none ∧ oneFileResult.job = some jobA ∧
    ∃ e1, (processJobResult squashFails [] oneFileResult).2 = .returned (some e1) ∧
      e1.Error = "on job terminated: squash failed" := by
  obtain ⟨e1, h1, _, h2⟩ :=
    (processJobResult_success squashFails [] oneFileResult jobA (by decide) (by decide)).2.2
      [{ Filename := "0000000000-0000000010.partial" }] (by decide) |>.2.2
      (.mk "squash failed" .plain none) (by decide)
  exact ⟨by decide, by decide, e1, h1, h2⟩

theorem NewFatalError_kind (e : GoError) : (NewFatalError e).kind = .fatal := rfl

theorem runSingleJob_cases (Work : Nat → WorkResult) (job : Job) :
    (∃ e0 e1 e2, (Work 0).Error = some e0 ∧ e0.kind = .retryable ∧
        (Work 1).Error = some e1 ∧ e1.kind = .retryable ∧
        (Work 2).Error = some e2 ∧ e2.kind = .retryable ∧
        runSingleJob none Work job =
          ⟨3, .ok { job := some job, partialsWritten := none, err := some e2 }⟩) ∨
    (∃ e0 e1 e2, (Work 0).Error = some e0 ∧ e0.kind = .retryable ∧
        (Work 1).Error = some e1 ∧ e1.kind = .retryable ∧
        (Work 2).Error = some e2 ∧ e2.kind ≠ .retryable ∧
        runSingleJob none Work job =
          ⟨3, .ok { job := some job, partialsWritten := none, err := some (NewFatalError e2) }⟩) ∨
    (∃ e0 e1, (Work 0).Error = some e0 ∧ e0.kind = .retryable ∧
        (Work 1).Error = some e1 ∧ e1.kind = .retryable ∧
        (Work 2).Error = none ∧
        runSingleJob none Work job =
          ⟨3, .ok { job := some job, partialsWritten := (Work 2).PartialFilesWritten,
                    err := none }⟩) ∨
    (∃ e0 e1, (Work 0).Error = some e0 ∧ e0.kind = .retryable ∧
        (Work 1).Error = some e1 ∧ e1.kind ≠ .retryable ∧
        runSingleJob none Work job =
          ⟨2, .ok { job := some job, partialsWritten := none, err := some (NewFatalError e1) }⟩) ∨
    (∃ e0, (Work 0).Error = some e0 ∧ e0.kind = .retryable ∧
        (Work 1).Error = none ∧
        runSingleJob none Work job =
          ⟨2, .ok { job := some job, partialsWritten := (Work 1).PartialFilesWritten,
                    err := none }⟩) ∨
    (∃ e0, (Work 0).Error = some e0 ∧ e0.kind ≠ .retryable ∧
        runSingleJob none Work job =
          ⟨1, .ok { job := some job, partialsWritten := none, err := some (NewFatalError e0) }⟩) ∨
    ((Work 0).Error = none ∧
        runSingleJob none Work job =
          ⟨1, .ok { job := some job, partialsWritten := (Work 0).PartialFilesWritten,
                    err := none }⟩) := by
  rcases h0 : (Work 0).Error with _ | e0
  · right; right; right; right; right; right
    simp [runSingleJob, RetryContext, retryLoop, workOnce, h0, fromWorkResult]
  · by_cases k0 : e0.kind = .retryable
    · rcases h1 : (Work 1).Error with _ | e1
      · right; right; right; right; left
        refine ⟨e0, rfl, k0, rfl, ?_⟩
        simp [runSingleJob, RetryContext, retryLoop, workOnce, h0, h1, k0, fromWorkResult]
      · by_cases k1 : e1.kind = .retryable
        · rcases h2 : (Work 2).Error with _ | e2
          · right; right; left
            refine ⟨e0, e1, rfl, k0, rfl, k1, rfl, ?_⟩
            simp [runSingleJob, RetryContext, retryLoop, workOnce, h0, h1, h2, k0, k1,
              fromWorkResult]
          · by_cases k2 : e2.kind = .retryable
            · left
              refine ⟨e0, e1, e2, rfl, k0, rfl, k1, rfl, k2, ?_⟩
              simp [runSingleJob, RetryContext, retryLoop, workOnce, h0, h1, h2, k0, k1, k2]
            · right; left
              refine ⟨e0, e1, e2, rfl, k0, rfl, k1, rfl, k2, ?_⟩
              simp [runSingleJob, RetryContext, retryLoop, workOnce, h0, h1, h2, k0, k1, k2,
                NewFatalError_kind]
        · right; right; right; left
          refine ⟨e0, e1, rfl, k0, rfl, k1, ?_⟩
          simp [runSingleJob, RetryContext, retryLoop, workOnce, h0, h1, k0, k1,
            NewFatalError_kind]
    · right; right; right; right; right; left
      refine ⟨e0, rfl, k0, ?_⟩
      simp [runSingleJob, RetryContext, retryLoop, workOnce, h0, k0, NewFatalError_kind]

/-- C7: with a context that is not cancelled, `runSingleJob` calls
`worker.Work` at least once and at most 3 times; it calls again only after a
`RetryableErr`, so an attempt that succeeds or fails otherwise is the last; an
error that is not retryable reaches the job result wrapped as a fatal error; a
success yields a result without error that carries the partial files of that
attempt; and two retryable failures followed by a success make exactly 3
attempts. -/
theorem runSingleJob_retries (Work : Nat → WorkResult) (job : Job) :
    (1 ≤ (runSingleJob none Work job).attempts ∧ (runSingleJob none Work job).attempts ≤ 3) ∧
    (∀ k, k + 1 < (runSingleJob none Work job).attempts → (Work k).retryable = true) ∧
    (∀ k, k < (runSingleJob none Work job).attempts → (Work k).retryable = false →
      (runSingleJob none Work job).attempts = k + 1) ∧
    (∀ k e, k < (runSingleJob none Work job).attempts → (Work k).Error = some e →
      e.kind ≠ .retryable →
      (runSingleJob none Work job).outcome
        = .ok { job := some job, partialsWritten := none, err := some (NewFatalError e) }) ∧
    (∀ k, k < (runSingleJob none Work job).attempts → (Work k).Error = none →
      (runSingleJob none Work job).outcome
        = .ok { job := some job, partialsWritten := (Work k).PartialFilesWritten, err := none }) ∧
    ((Work 0).retryable = true → (Work 1).retryable = true → (Work 2).Error = none →
      (runSingleJob none Work job).attempts = 3 ∧
      (runSingleJob none Work job).outcome
        = .ok { job := some job, partialsWritten := (Work 2).PartialFilesWritten, err := none }) := by
  rcases runSingleJob_cases Work job with
    ⟨e0, e1, e2, h0, k0, h1, k1, h2, k2, hr⟩ | ⟨e0, e1, e2, h0, k0, h1, k1, h2, k2, hr⟩ |
    ⟨e0, e1, h0, k0, h1, k1, h2, hr⟩ | ⟨e0, e1, h0, k0, h1, k1, hr⟩ |
    ⟨e0, h0, k0, h1, hr⟩ | ⟨e0, h0, k0, hr⟩ | ⟨h0, hr⟩ <;>
  · rw [hr]
    refine ⟨⟨by simp, by simp⟩, ?_, ?_, ?_, ?_, ?_⟩
    · intro k hk
      have hk2 : k ≤ 2 := by simp only at hk; omega
      interval_cases k <;> simp_all [WorkResult.retryable]
    · intro k hk hnr
      have hk2 : k ≤ 2 := by simp only at hk; omega
      interval_cases k <;> simp_all [WorkResult.retryable]
    · intro k e hk he hne
      have hk2 : k ≤ 2 := by simp only at hk; omega
      interval_cases k <;> simp_all
    · intro k hk he
      have hk2 : k ≤ 2 := by simp only at hk; omega
      interval_cases k <;> simp_all
    · intro r0 r1 e2
      simp_all [WorkResult.retryable]

/-- C7 on the worker that fails twice with a retryable error, then succeeds. -/
theorem runSingleJob_retries_witness :
    (flakyWorker 0).retryable = true ∧ (flakyWorker 1).retryable = true ∧
    (flakyWorker 2).Error = none ∧
    (runSingleJob none flakyWorker jobA).attempts = 3 ∧
    (runSingleJob none flakyWorker jobA).outcome
      = .ok { job := some jobA, partialsWritten := (flakyWorker 2).PartialFilesWritten,
              err := none } :=
  ⟨by decide, by decide, by decide,
    (runSingleJob_retries flakyWorker jobA).2.2.2.2.2 (by decide) (by decide) (by decide)⟩

/-! ## Properties of the waiter -/

theorem NewWaiter_items_fresh (blockNum : Nat) (stores : List Module) :
    ∀ (acc : List waiterItem),
      (∀ wi ∈ acc, wi.closeOnce = false ∧ wi.waitChan.closed = false) →
      ∀ wi ∈ stores.foldl
          (fun (items : List waiterItem) store =>
            if blockNum ≤ store.InitialBlock then items
            else items ++ [{ StoreName := store.Name, BlockNum := blockNum, closeOnce := false,
                             waitChan := { id := items.length, closed := false } }])
          acc,
        wi.closeOnce = false ∧ wi.waitChan.closed = false := by
  induction stores with
  | nil => intro acc h; simpa using h
  | cons st rest ih =>
    intro acc h
    simp only [List.foldl_cons]
    apply ih
    split
    · exact h
    · intro wi hwi
      rcases List.mem_append.1 hwi with h1 | h1
      · exact h wi h1
      · simp only [List.mem_singleton] at h1
        subst h1
        exact ⟨rfl, rfl⟩

/-- The items `NewWaiter` creates satisfy the invariant of the waiter. -/
theorem NewWaiter_closedOnce (blockNum : Nat) (stores : List Module) :
    (NewWaiter blockNum stores).closedOnce := by
  intro wi hwi
  have h := NewWaiter_items_fresh blockNum stores [] (by simp) wi hwi
  rw [h.1, h.2]

theorem Close_of_closedOnce (wi : waiterItem) (h : wi.closeOnce = wi.waitChan.closed) :
    wi.Close = .ok { wi with closeOnce := true, waitChan := { wi.waitChan with closed := true } } := by
  obtain ⟨name, num, once, ⟨id, closed⟩⟩ := wi
  simp only at h
  subst h
  cases once <;> simp [waiterItem.Close]

theorem signalItems_eq_map (storeName : String) (blockNum : Nat) (items : List waiterItem)
    (h : ∀ wi ∈ items, wi.closeOnce = wi.waitChan.closed) :
    signalItems storeName blockNum items
      = .ok (items.map (fun wi => wi.markSatisfied storeName blockNum)) := by
  induction items with
  | nil => rfl
  | cons wi rest ih =>
    have hwi := h wi (List.mem_cons_self _ _)
    have hrest := ih (fun x hx => h x (List.mem_cons_of_mem _ hx))
    simp only [signalItems, hrest, List.map_cons]
    by_cases h1 : wi.StoreName = storeName
    · by_cases h2 : wi.BlockNum ≤ blockNum
      · have h3 : ¬ wi.BlockNum > blockNum := by omega
        simp [h1, h2, h3, Close_of_closedOnce wi hwi, waiterItem.markSatisfied, Except.map]
      · have h3 : wi.BlockNum > blockNum := by omega
        simp [h1, h2, h3, waiterItem.markSatisfied, Except.map]
    · simp [h1, waiterItem.markSatisfied, Except.map]

theorem markSatisfied_closedOnce (wi : waiterItem) (s : String) (b : Nat)
    (h : wi.closeOnce = wi.waitChan.closed) :
    (wi.markSatisfied s b).closeOnce = (wi.markSatisfied s b).waitChan.closed := by
  unfold waiterItem.markSatisfied
  split <;> simp [h]

theorem markSatisfied_absorb (wi : waiterItem) (s : String) (b b1 : Nat) (hle : b1 ≤ b) :
    (wi.markSatisfied s b).markSatisfied s b1 = wi.markSatisfied s b := by
  unfold waiterItem.markSatisfied
  by_cases h1 : wi.StoreName = s
  · by_cases h2 : wi.BlockNum ≤ b
    · by_cases h3 : wi.BlockNum ≤ b1 <;> simp [h1, h2, h3]
    · have h3 : ¬ wi.BlockNum ≤ b1 := by omega
      simp [h1, h2, h3]
  · simp [h1]

theorem Signal_eq (w : BlockWaiter) (s : String) (b : Nat) (hw : w.closedOnce) :
    w.Signal s b = .ok { w with items := w.items.map (fun wi => wi.markSatisfied s b) } := by
  unfold BlockWaiter.Signal
  rw [signalItems_eq_map s b w.items hw]
  rfl

theorem Signal_closedOnce (w : BlockWaiter) (s : String) (b : Nat) (hw : w.closedOnce) :
    BlockWaiter.closedOnce { w with items := w.items.map (fun wi => wi.markSatisfied s b) } := by
  intro wi hwi
  simp only [List.mem_map] at hwi
  obtain ⟨x, hx, rfl⟩ := hwi
  exact markSatisfied_closedOnce x s b (hw x hx)

/-- C8: `Signal(s, b)` returns, and leaves satisfied exactly the items that
were satisfied before together with the items of store `s` whose block is at
most `b`; every other item keeps its state, none goes back to unsatisfied, and
the item list (names, block numbers, channels, order, `Size`) is unchanged, as
are the other fields of the waiter, none of which `Signal` itself writes. -/
theorem Signal_marks_items (w : BlockWaiter) (s : String) (b : Nat) (hw : w.closedOnce) :
    ∃ w1, w.Signal s b = .ok w1 ∧ w1.closedOnce ∧
      w1.Size = w.Size ∧
      w1.items.map (fun wi => wi.StoreName) = w.items.map (fun wi => wi.StoreName) ∧
      w1.items.map (fun wi => wi.BlockNum) = w.items.map (fun wi => wi.BlockNum) ∧
      w1.items.map (fun wi => wi.waitChan.id) = w.items.map (fun wi => wi.waitChan.id) ∧
      w1.items.map (fun wi => wi.satisfied)
        = w.items.map (fun wi =>
            wi.satisfied || (decide (wi.StoreName = s) && decide (wi.BlockNum ≤ b))) ∧
      (w1.setup, w1.done, w1.made, w1.goroutines) = (w.setup, w.done, w.made, w.goroutines) := by
  refine ⟨_, Signal_eq w s b hw, Signal_closedOnce w s b hw, ?_, ?_, ?_, ?_, ?_, rfl⟩
  · simp [BlockWaiter.Size]
  · simp only [List.map_map]
    apply List.map_congr_left
    intro wi _
    simp only [Function.comp, waiterItem.markSatisfied]
    split <;> rfl
  · simp only [List.map_map]
    apply List.map_congr_left
    intro wi _
    simp only [Function.comp, waiterItem.markSatisfied]
    split <;> rfl
  · simp only [List.map_map]
    apply List.map_congr_left
    intro wi _
    simp only [Function.comp, waiterItem.markSatisfied]
    split <;> rfl
  · simp only [List.map_map]
    apply List.map_congr_left
    intro wi _
    simp only [Function.comp, waiterItem.markSatisfied, waiterItem.satisfied]
    by_cases h1 : wi.StoreName = s <;> by_cases h2 : wi.BlockNum ≤ b <;> simp [h1, h2]

/-- C8 on the waiter of the stores `A` and `B`, signalled for `A` at block 10. -/
theorem Signal_marks_items_witness :
    waiterAB.closedOnce ∧
    ∃ w1, waiterAB.Signal "A" 10 = .ok w1 ∧ w1.Size = 2 ∧
      w1.items.map (fun wi => wi.satisfied) = [true, false] := by
  obtain ⟨w1, h1, _, h2, _, _, _, h3, _⟩ := Signal_marks_items waiterAB "A" 10 (by decide)
  exact ⟨by decide, w1, h1, h2, h3⟩

/-- C9: after `Signal(s, b)`, a further `Signal(s, b1)` with `b1 ≤ b` (and so
`Signal(s, b)` itself) returns without panic and leaves the waiter as it is. -/
theorem Signal_absorbs (w : BlockWaiter) (s : String) (b b1 : Nat) (hw : w.closedOnce)
    (hle : b1 ≤ b) :
    ∃ w1, w.Signal s b = .ok w1 ∧ w1.Signal s b1 = .ok w1 ∧ w1.Signal s b = .ok w1 := by
  have key : ∀ b2, b2 ≤ b →
      BlockWaiter.Signal { w with items := w.items.map (fun wi => wi.markSatisfied s b) } s b2
        = .ok { w with items := w.items.map (fun wi => wi.markSatisfied s b) } := by
    intro b2 h2
    rw [Signal_eq _ s b2 (Signal_closedOnce w s b hw)]
    simp only [List.map_map]
    congr 2
    apply List.map_congr_left
    intro wi _
    exact markSatisfied_absorb wi s b b2 h2
  exact ⟨_, Signal_eq w s b hw, key b1 hle, key b (le_refl b)⟩

/-- C9 on the waiter of the stores `A` and `B`: block 12, then block 10. -/
theorem Signal_absorbs_witness :
    waiterAB.closedOnce ∧ 10 ≤ 12 ∧
    ∃ w1, waiterAB.Signal "B" 12 = .ok w1 ∧ w1.Signal "B" 10 = .ok w1 ∧
      w1.Signal "B" 12 = .ok w1 :=
  ⟨by decide, by decide, Signal_absorbs waiterAB "B" 12 10 (by decide) (by decide)⟩

theorem Wait_again (w : BlockWaiter) (ctxErr ctxErr1 : Option GoError) :
    (w.Wait ctxErr).2.Wait ctxErr1 = w.Wait ctxErr := by
  unfold BlockWaiter.Wait
  by_cases hs : w.setup = true
  · simp [hs]
  · by_cases hi : w.items.length = 0 <;> simp [hs, hi]

theorem waitAgain_fixed (w : BlockWaiter) (ctxErr : Option GoError)
    (ctxs : List (Option GoError)) :
    waitAgain (w.Wait ctxErr).2 ctxs = (w.Wait ctxErr).2 := by
  induction ctxs with
  | nil => rfl
  | cons c cs ih =>
    simp only [waitAgain, List.foldl_cons] at ih ⊢
    rw [Wait_again w ctxErr c]
    exact ih

/-- C10: the first `Wait` of a waiter without items returns a channel that is
already closed, whatever the context and without any `Signal`; the first
`Wait` of any waiter returns the channel it stores in `done`; and every later
`Wait` returns that same channel and leaves the waiter as the first call left
it: no channel is made and no goroutine started again. -/
theorem Wait_empty_resolved_and_idempotent (w : BlockWaiter) (ctxErr : Option GoError) :
    (w.setup = false → w.items = [] →
      ∃ c, (w.Wait ctxErr).2.done = some c ∧ (w.Wait ctxErr).1 = some c.id ∧ c.closed = true) ∧
    (w.setup = false → ∃ c, (w.Wait ctxErr).2.done = some c ∧ (w.Wait ctxErr).1 = some c.id) ∧
    (∀ (ctxs : List (Option GoError)) (later : Option GoError),
      (waitAgain (w.Wait ctxErr).2 ctxs).Wait later = w.Wait ctxErr) := by
  refine ⟨?_, ?_, ?_⟩
  · intro hs hi
    simp [BlockWaiter.Wait, hs, hi]
  · intro hs
    by_cases hi : w.items.length = 0 <;> simp [BlockWaiter.Wait, hs, hi]
  · intro ctxs later
    rw [waitAgain_fixed, Wait_again]

/-- C10 on a waiter without items, with a cancelled context. -/
theorem Wait_empty_resolved_and_idempotent_witness :
    waiterNone.setup = false ∧ waiterNone.items = [] ∧
    ∃ c, (waiterNone.Wait (some retryableErr)).2.done = some c ∧
      (waiterNone.Wait (some retryableErr)).1 = some c.id ∧ c.closed = true :=
  ⟨by decide, by decide,
    (Wait_empty_resolved_and_idempotent waiterNone (some retryableErr)).1
      (by decide) (by decide)⟩

/-! ## Properties of the execution of a call -/

theorem buildArguments_spec {Heap : Type} (writeToHeap : Heap → List Nat → String → Nat × Heap)
    (arguments : List Argument) :
    ∀ (s : GuestArgs Heap), (∀ a ∈ arguments, a.known = true) →
      ∃ s1, buildArguments writeToHeap arguments s = .ok s1 ∧
        s1.args = s.args ++ specGuestArgs writeToHeap arguments s.call.inputStores.length s.heap ∧
        s1.call.inputStores = s.call.inputStores ++ readerStores arguments ∧
        (s1.call.outputStore, s1.call.updatePolicy, s1.call.valueType)
          = writerOutput arguments (s.call.outputStore, s.call.updatePolicy, s.call.valueType) ∧
        s1.call.moduleName = s.call.moduleName ∧ s1.call.entrypoint = s.call.entrypoint ∧
        s1.call.panicError = s.call.panicError ∧ s1.call.Logs = s.call.Logs ∧
        s1.call.LogsByteCount = s.call.LogsByteCount ∧
        s1.call.ExecutionStack = s.call.ExecutionStack ∧
        s1.call.returnValue = s.call.returnValue := by
  induction arguments with
  | nil =>
    intro s _
    exact ⟨s, rfl, by simp [specGuestArgs], by simp [readerStores], rfl, rfl, rfl, rfl, rfl,
      rfl, rfl, rfl⟩
  | cons a rest ih =>
    intro s hk
    have hrest : ∀ x ∈ rest, x.known = true := fun x hx => hk x (List.mem_cons_of_mem _ hx)
    have ha := hk a (List.mem_cons_self _ _)
    cases a with
    | StoreWriterOutput n st p vt =>
      obtain ⟨s1, h1, h2, h3, h4, h5⟩ := ih
        { s with call := { s.call with outputStore := st, updatePolicy := p, valueType := vt } }
        hrest
      refine ⟨s1, ?_, ?_, ?_, ?_, h5⟩
      · simp only [buildArguments, addArgument]; exact h1
      · simpa [specGuestArgs] using h2
      · simpa [readerStores] using h3
      · simpa [writerOutput] using h4
    | StoreReaderInput n st =>
      obtain ⟨s1, h1, h2, h3, h4, h5⟩ := ih
        { s with call := { s.call with inputStores := s.call.inputStores ++ [st] },
                 args := s.args ++ [(s.call.inputStores ++ [st]).length - 1] }
        hrest
      refine ⟨s1, ?_, ?_, ?_, ?_, h5⟩
      · simp only [buildArguments, addArgument]; exact h1
      · simpa [specGuestArgs] using h2
      · simpa [readerStores] using h3
      · simpa [writerOutput] using h4
    | ValueArgument n v =>
      obtain ⟨s1, h1, h2, h3, h4, h5⟩ := ih
        { s with args := s.args ++ [(writeToHeap s.heap v n).1, v.length],
                 heap := (writeToHeap s.heap v n).2 }
        hrest
      refine ⟨s1, ?_, ?_, ?_, ?_, h5⟩
      · simp only [buildArguments, addArgument]; exact h1
      · simpa [specGuestArgs] using h2
      · simpa [readerStores] using h3
      · simpa [writerOutput] using h4
    | unknown n => simp [Argument.known] at ha

theorem specGuestArgs_length {Heap : Type}
    (writeToHeap : Heap → List Nat → String → Nat × Heap) (arguments : List Argument) :
    ∀ (handle : Nat) (heap : Heap),
      (specGuestArgs writeToHeap arguments handle heap).length
        = 2 * countValueArguments arguments + (readerStores arguments).length := by
  induction arguments with
  | nil => intro _ _; rfl
  | cons a rest ih =>
    intro handle heap
    cases a <;> simp [specGuestArgs, countValueArguments, readerStores, ih] <;> omega

/-- C11: once the entrypoint has been called, `ExecuteNewCall` returns the
Call as the guest left it; when the guest call returned an error it returns
exactly `call.panicError` if a host panic was captured, and otherwise the
guest error wrapped as `executing module "<moduleName>": <err>`, the name
being the Call's module name as `%q` prints it; when the guest call returned
no error it returns a nil error. -/
theorem ExecuteNewCall_guest_error {Heap : Type} (wide : Nat → Bool) (m : WasmModule Heap)
    (moduleName entrypoint : String) (arguments : List Argument) (heap : Heap)
    (f : Call → List Nat → Heap → Call × Option GoError) (s : GuestArgs Heap)
    (hinst : m.instantiateModule = .ok heap) (hf : m.ExportedFunction entrypoint = some f)
    (hs : buildArguments m.writeToHeap arguments
      { call := newCall moduleName entrypoint, args := [], heap := heap } = .ok s) :
    (ExecuteNewCall wide m moduleName entrypoint arguments).panic = none ∧
    (ExecuteNewCall wide m moduleName entrypoint arguments).call = some (f s.call s.args s.heap).1 ∧
    (∀ err panicError, (f s.call s.args s.heap).2 = some err →
      (f s.call s.args s.heap).1.panicError = some panicError →
      (ExecuteNewCall wide m moduleName entrypoint arguments).err = some panicError ∧
      (ExecuteNewCall wide m moduleName entrypoint arguments).err
        = (f s.call s.args s.heap).1.Err) ∧
    (∀ err, (f s.call s.args s.heap).2 = some err →
      (f s.call s.args s.heap).1.panicError = none →
      ∃ e, (ExecuteNewCall wide m moduleName entrypoint arguments).err = some e ∧
        Wraps e err ∧
        e.Error = "executing module " ++ goQuote wide (f s.call s.args s.heap).1.moduleName
          ++ ": " ++ err.Error ∧
        ((f s.call s.args s.heap).1.moduleName = moduleName → plainText moduleName = true →
          e.Error = "executing module \"" ++ moduleName ++ "\": " ++ err.Error)) ∧
    ((f s.call s.args s.heap).2 = none →
      (ExecuteNewCall wide m moduleName entrypoint arguments).err = none) := by
  refine ⟨?_, ?_, ?_, ?_, ?_⟩
  · simp only [ExecuteNewCall, hinst, hf, hs]
    split
    · split <;> rfl
    · rfl
  · simp only [ExecuteNewCall, hinst, hf, hs]
    split
    · split <;> rfl
    · rfl
  · intro err pe herr hpe
    simp [ExecuteNewCall, hinst, hf, hs, herr, hpe, Call.Err]
  · intro err herr hpe
    refine ⟨errorfW ("executing module " ++ goQuote wide (f s.call s.args s.heap).1.moduleName
      ++ ": ") err, ?_, wraps_errorfW _ _ _ (chain_head err), rfl, ?_⟩
    · simp [ExecuteNewCall, hinst, hf, hs, herr, hpe]
    · intro hname hplain
      rw [hname]
      simp only [errorfW, GoError.Error, goQuote_plain wide _ hplain]
      apply String.ext
      simp [String.data_append]
  · intro herr
    simp [ExecuteNewCall, hinst, hf, hs, herr]

/-- C11 on a guest that a host panic aborts. -/
theorem ExecuteNewCall_guest_error_witness :
    sampleModule.instantiateModule = .ok 0 ∧
    sampleModule.ExportedFunction "panics" = some guestPanics ∧
    ∃ s, buildArguments sampleModule.writeToHeap sampleArguments
          { call := newCall "m" "panics", args := [], heap := 0 } = .ok s ∧
      (guestPanics s.call s.args s.heap).2 = some guestTrap ∧
      (guestPanics s.call s.args s.heap).1.panicError = some hostPanic ∧
      (ExecuteNewCall (fun _ => false) sampleModule "m" "panics" sampleArguments).err
        = some hostPanic := by
  obtain ⟨s, hs, _⟩ := buildArguments_spec sampleModule.writeToHeap sampleArguments
    { call := newCall "m" "panics", args := [], heap := 0 } (by decide)
  exact ⟨rfl, rfl, s, hs, rfl, rfl,
    ((ExecuteNewCall_guest_error (fun _ => false) sampleModule "m" "panics" sampleArguments 0
      guestPanics s rfl rfl hs).2.2.1 guestTrap hostPanic rfl rfl).1⟩

/-- C12: for an argument list of the three flavours, `ExecuteNewCall` calls
the guest with the values of the arguments in input order: the k-th
`StoreReaderInput` (from 0) gives the value k and its store is
`inputStores[k]`, a `ValueArgument` gives its pointer and the length of its
bytes, a `StoreWriterOutput` gives no value and sets `outputStore`,
`updatePolicy` and `valueType`; the guest receives twice the number of
`ValueArgument`s plus the number of `StoreReaderInput`s values. -/
theorem ExecuteNewCall_guest_arguments {Heap : Type} (wide : Nat → Bool) (m : WasmModule Heap)
    (moduleName entrypoint : String) (arguments : List Argument) (heap : Heap)
    (f : Call → List Nat → Heap → Call × Option GoError)
    (hinst : m.instantiateModule = .ok heap) (hf : m.ExportedFunction entrypoint = some f)
    (hknown : ∀ a ∈ arguments, a.known = true) :
    ∃ s, buildArguments m.writeToHeap arguments
          { call := newCall moduleName entrypoint, args := [], heap := heap } = .ok s ∧
      (ExecuteNewCall wide m moduleName entrypoint arguments).guestArgs = some s.args ∧
      (ExecuteNewCall wide m moduleName entrypoint arguments).call
        = some (f s.call s.args s.heap).1 ∧
      s.args = specGuestArgs m.writeToHeap arguments 0 heap ∧
      s.call.inputStores = readerStores arguments ∧
      (s.call.outputStore, s.call.updatePolicy, s.call.valueType)
        = writerOutput arguments (none, .UNSET, "") ∧
      s.args.length = 2 * countValueArguments arguments + (readerStores arguments).length := by
  obtain ⟨s, hs, hargs, hstores, hout, _⟩ :=
    buildArguments_spec m.writeToHeap arguments
      { call := newCall moduleName entrypoint, args := [], heap := heap } hknown
  simp only [newCall, List.nil_append, List.length_nil] at hargs hstores hout
  refine ⟨s, hs, ?_, ?_, hargs, hstores, hout, ?_⟩
  · simp only [ExecuteNewCall, hinst, hf, hs]
    split
    · split <;> rfl
    · rfl
  · simp only [ExecuteNewCall, hinst, hf, hs]
    split
    · split <;> rfl
    · rfl
  · rw [hargs, specGuestArgs_length]

/-- C12 on two value arguments, two store readers and a store writer. -/
theorem ExecuteNewCall_guest_arguments_witness :
    sampleModule.instantiateModule = .ok 0 ∧
    sampleModule.ExportedFunction "returns" = some guestReturns ∧
    (∀ a ∈ sampleArguments, a.known = true) ∧
    (ExecuteNewCall (fun _ => false) sampleModule "m" "returns" sampleArguments).guestArgs
      = some [0, 3, 0, 3, 1, 1] := by
  obtain ⟨s, _, h1, _, h2, _⟩ :=
    ExecuteNewCall_guest_arguments (fun _ => false) sampleModule "m" "returns" sampleArguments 0
      guestReturns rfl rfl (by decide)
  refine ⟨rfl, rfl, by decide, ?_⟩
  rw [h1, h2]
  rfl

/-- C13: the log cap `maxLogByteCount` is 131072 bytes, and
`ReachedLogsMaxByteCount` is true if and only if `LogsByteCount` is at least
131072: false at 0 and at 131071, true at 131072. -/
theorem ReachedLogsMaxByteCount_iff (c : Call) :
    maxLogByteCount = 131072 ∧
    (c.ReachedLogsMaxByteCount = true ↔ 131072 ≤ c.LogsByteCount) ∧
    ({ c with LogsByteCount := 0 } : Call).ReachedLogsMaxByteCount = false ∧
    ({ c with LogsByteCount := 131071 } : Call).ReachedLogsMaxByteCount = false ∧
    ({ c with LogsByteCount := 131072 } : Call).ReachedLogsMaxByteCount = true := by
  refine ⟨rfl, ?_, ?_, ?_, ?_⟩ <;> simp [Call.ReachedLogsMaxByteCount, maxLogByteCount]

/-! ## Properties of `NewWaiter` -/

theorem NewWaiter_fold (blockNum : Nat) (stores : List Module) :
    ∀ (acc : List waiterItem),
      (stores.foldl
          (fun (items : List waiterItem) store =>
            if blockNum ≤ store.InitialBlock then items
            else items ++ [{ StoreName := store.Name, BlockNum := blockNum, closeOnce := false,
                             waitChan := { id := items.length, closed := false } }])
          acc).map (fun wi => (wi.StoreName, wi.BlockNum, wi.satisfied))
        = acc.map (fun wi => (wi.StoreName, wi.BlockNum, wi.satisfied))
          ++ (stores.filter (fun store => decide (store.InitialBlock < blockNum))).map
              (fun store => (store.Name, blockNum, false)) := by
  induction stores with
  | nil => intro acc; simp
  | cons st rest ih =>
    intro acc
    simp only [List.foldl_cons]
    rw [ih]
    by_cases h : blockNum ≤ st.InitialBlock
    · have h2 : ¬ st.InitialBlock < blockNum := by omega
      simp [h, h2]
    · have h2 : st.InitialBlock < blockNum := by omega
      simp [h, h2, waiterItem.satisfied]

theorem NewWaiter_fold_ids (blockNum : Nat) (stores : List Module) :
    ∀ (acc : List waiterItem),
      (stores.foldl
          (fun (items : List waiterItem) store =>
            if blockNum ≤ store.InitialBlock then items
            else items ++ [{ StoreName := store.Name, BlockNum := blockNum, closeOnce := false,
                             waitChan := { id := items.length, closed := false } }])
          acc).map (fun wi => wi.waitChan.id)
        = acc.map (fun wi => wi.waitChan.id)
          ++ List.range' acc.length
              (stores.filter (fun store => decide (store.InitialBlock < blockNum))).length := by
  induction stores with
  | nil => intro acc; simp
  | cons st rest ih =>
    intro acc
    simp only [List.foldl_cons]
    rw [ih]
    by_cases h : blockNum ≤ st.InitialBlock
    · have h2 : ¬ st.InitialBlock < blockNum := by omega
      simp [h, h2]
    · have h2 : st.InitialBlock < blockNum := by omega
      simp [h, h2, List.range'_succ]

/-- C14: `NewWaiter(b, stores...)` holds one unsatisfied item per store whose
`InitialBlock` is below `b`, in the order of the stores, each with the name of
its store and the block `b`; a store with `b ≤ InitialBlock` gives no item.
`Size()` is the number of stores with `InitialBlock < b`, the channels of the
items are distinct, `Wait` has not run, and the waiter is empty when `b` is at
or before the initial block of every store. -/
theorem NewWaiter_items (blockNum : Nat) (stores : List Module) :
    (NewWaiter blockNum stores).items.map (fun wi => (wi.StoreName, wi.BlockNum, wi.satisfied))
      = (stores.filter (fun store => decide (store.InitialBlock < blockNum))).map
          (fun store => (store.Name, blockNum, false)) ∧
    (NewWaiter blockNum stores).Size
      = stores.countP (fun store => decide (store.InitialBlock < blockNum)) ∧
    (NewWaiter blockNum stores).items.map (fun wi => wi.waitChan.id)
      = List.range (NewWaiter blockNum stores).Size ∧
    ((NewWaiter blockNum stores).setup = false ∧ (NewWaiter blockNum stores).done = none) ∧
    ((∀ store ∈ stores, blockNum ≤ store.InitialBlock) →
      (NewWaiter blockNum stores).items = [] ∧ (NewWaiter blockNum stores).Size = 0) := by
  have hitems := NewWaiter_fold blockNum stores []
  have hids := NewWaiter_fold_ids blockNum stores []
  simp only [List.map_nil, List.nil_append, List.length_nil] at hitems hids
  have hsize : (NewWaiter blockNum stores).Size
      = stores.countP (fun store => decide (store.InitialBlock < blockNum)) := by
    have := congrArg List.length hitems
    simpa [BlockWaiter.Size, NewWaiter, List.countP_eq_length_filter] using this
  refine ⟨hitems, hsize, ?_, ⟨rfl, rfl⟩, ?_⟩
  · rw [hsize, List.countP_eq_length_filter, List.range_eq_range']
    exact hids
  · intro hall
    have hnil : stores.filter (fun store => decide (store.InitialBlock < blockNum)) = [] := by
      rw [List.filter_eq_nil_iff]
      intro st hst
      have := hall st hst
      simp; omega
    have h0 : (NewWaiter blockNum stores).Size = 0 := by
      rw [hsize, List.countP_eq_length_filter, hnil]; rfl
    exact ⟨List.length_eq_zero.1 h0, h0⟩

/-- C14 on a waiter at block 10 for a store that starts at block 10. -/
theorem NewWaiter_items_witness :
    (∀ store ∈ [({ Name := "A", InitialBlock := 10 } : Module)], 10 ≤ store.InitialBlock) ∧
    waiterNone.items = [] ∧ waiterNone.Size = 0 :=
  ⟨by decide,
    (NewWaiter_items 10 [{ Name := "A", InitialBlock := 10 }]).2.2.2.2 (by decide)⟩

end Substreams
